import Mathlib

/-!
Verification of the remote process execution client
(`src/rust/engine/process_execution/src/remote.rs`).

The Rust source is shallowly embedded as pure Lean functions.  Conventions:

* Byte strings (`bytes::Bytes`, `Vec<u8>`) are `List Nat`.
* `hashing::Fingerprint` (32 raw bytes) is `List Nat`; `hashing::Digest`
  is the pair `(fingerprint, size)`.
* SHA-256 is modelled as an idealized collision-free fingerprint: the
  fingerprint of a byte string is the byte string itself.  Every claim
  treated here depends only on the hash being a function and injective,
  which real SHA-256 is assumed to be.
* The generated protobuf message types (explicitly out of scope in the
  design, which defers to "the generated protocol message definitions")
  are embedded as Lean structures; an opaque serialized payload is an
  inductive that is either a well-formed message or junk, so that
  decoding is a total function with an error case, exactly as
  `merge_from_bytes` presents it to the client code.
* The CAS `Store` collaborator is embedded per its interface: a local
  content-addressed map plus a set of digests known to the remote side.
* Asynchronous combinators (`join`, `and_then` on futures) are embedded
  as left-to-right sequencing with explicit store-state threading; the
  first error encountered is the one returned, matching how the driver
  observes the futures it polls.
-/

deriving instance DecidableEq for Except

/-! ## Bytes, fingerprints, digests -/

/-- Byte strings (`bytes::Bytes`). -/
abbrev RBytes : Type := List Nat

/-- `hashing::Fingerprint`: 32 raw bytes, here an arbitrary byte list. -/
abbrev Fingerprint : Type := List Nat

/-- `hashing::Digest`: a fingerprint together with a byte length. -/
structure HDigest where
  fingerprint : Fingerprint
  sizeBytes : Nat
deriving DecidableEq

/-- Idealized SHA-256: the fingerprint of a byte string is the byte
string itself, which keeps the model collision-free (injective). -/
def sha256Fingerprint (b : RBytes) : Fingerprint := b

/-- The digest of a byte string: idealized fingerprint plus length. -/
def digestOf (b : RBytes) : HDigest :=
  { fingerprint := sha256Fingerprint b, sizeBytes := List.length b }

/-! ## String utilities

Rust `str` operations used by the source, re-implemented structurally
over `String.data` so that they evaluate inside the kernel. -/

/-- Lexicographic strict comparison of char lists (Rust `str` `Ord`;
UTF-8 byte order coincides with code point order). -/
def listLtB : List Char → List Char → Bool
  | [], [] => false
  | [], _ :: _ => true
  | _ :: _, [] => false
  | a :: as, b :: bs => if a < b then true else if b < a then false else listLtB as bs

/-- Rust `String` strict `<`. -/
def strLtB (s t : String) : Bool := listLtB s.data t.data

/-- Rust `String` `<=`, as the negation of the reversed strict order. -/
def strLeB (s t : String) : Bool := ! strLtB t s

/-- `str::split('/')` on the character level: splits at every `'/'`,
keeping empty fields, always producing at least one field. -/
def splitSlashChars : List Char → List (List Char)
  | [] => [[]]
  | c :: rest =>
    let r := splitSlashChars rest
    if c = '/' then [] :: r
    else
      match r with
      | h :: t => (c :: h) :: t
      | [] => [[c]]

/-- `subject.split("/")` from the violation handling. -/
def splitSlash (s : String) : List String :=
  (splitSlashChars s.data).map String.mk

/-- Value of a hex digit character, accepting both cases. -/
def hexVal (c : Char) : Option Nat :=
  if '0' ≤ c ∧ c ≤ '9' then some (c.toNat - 48)
  else if 'a' ≤ c ∧ c ≤ 'f' then some (c.toNat - 87)
  else if 'A' ≤ c ∧ c ≤ 'F' then some (c.toNat - 55)
  else none

/-- Hex decoding of a character list into bytes; fails on odd length or
a non-hex character. -/
def hexBytes : List Char → Option (List Nat)
  | [] => some []
  | [_] => none
  | c1 :: c2 :: rest =>
    match hexVal c1, hexVal c2, hexBytes rest with
    | some h, some l, some bs => some ((16 * h + l) :: bs)
    | _, _, _ => none

/-- Rendering of a byte as two lowercase hex characters. -/
def byteToHex (b : Nat) : List Char :=
  let d := fun n => if n < 10 then Char.ofNat (48 + n) else Char.ofNat (87 + n)
  [d (b / 16 % 16), d (b % 16)]

/-- Lowercase hex rendering of a byte string. -/
def bytesToHex (bs : List Nat) : String :=
  String.mk (List.flatten (bs.map byteToHex))

/-- `Fingerprint::from_hex_string`: exactly 64 hex characters decoding
to 32 bytes; anything else is an error. -/
def fingerprintFromHex (s : String) : Except String Fingerprint :=
  if s.data.length = 64 then
    match hexBytes s.data with
    | some bs => Except.ok bs
    | none => Except.error ("invalid hex string: " ++ s)
  else Except.error ("invalid length for hex string: " ++ s)

/-- `str::parse::<usize>()`: optional leading `'+'`, at least one
digit, decimal digits only, value within 64 bits. -/
def parseUsize (s : String) : Except String Nat :=
  let cs := match s.data with
    | '+' :: rest => rest
    | other => other
  if cs = [] then Except.error ("cannot parse integer from empty string: " ++ s)
  else if cs.all (fun c => decide ('0' ≤ c) && decide (c ≤ '9')) then
    let n := cs.foldl (fun acc c => 10 * acc + (c.toNat - 48)) 0
    if n < 2 ^ 64 then Except.ok n
    else Except.error ("number too large to fit in target type: " ++ s)
  else Except.error ("invalid digit found in string: " ++ s)

/-! ## The CAS Store collaborator

Embedded per the interface the client uses: `store_file_bytes`,
`load_file_bytes_with`, `ensure_remote_has_recursive`.  The local side
is a content-addressed association list; the remote side is the list of
digests the remote CAS is known to hold. -/

/-- Lookup in a content-addressed association list. -/
def lookupBlob : List (HDigest × RBytes) → HDigest → Option RBytes
  | [], _ => none
  | (d, b) :: rest, q => if d = q then some b else lookupBlob rest q

/-- The CAS `Store` collaborator's observable state. -/
structure CasStore where
  localBlobs : List (HDigest × RBytes)
  remoteDigests : List HDigest
deriving DecidableEq

/-- `Store::store_file_bytes(bytes, initial_lease)`: persist locally,
returning the content digest.  The boolean canonicalization flag only
affects proto canonicalization inside the collaborator and is ignored
by the model. -/
def CasStore.storeFileBytes (s : CasStore) (b : RBytes) (_canonicalize : Bool) :
    HDigest × CasStore :=
  (digestOf b, { s with localBlobs := (digestOf b, b) :: s.localBlobs })

/-- `Store::load_file_bytes_with(digest, |v| v)`: fetch local bytes,
`none` iff not present. -/
def CasStore.loadFileBytes (s : CasStore) (d : HDigest) : Option RBytes :=
  lookupBlob s.localBlobs d

/-- `Store::ensure_remote_has_recursive(digests)`: afterwards the
remote CAS holds the digests. -/
def CasStore.ensureRemoteHasRecursive (s : CasStore) (ds : List HDigest) : CasStore :=
  { s with remoteDigests := ds ++ s.remoteDigests }

/-- The store with nothing persisted. -/
def emptyStore : CasStore := { localBlobs := [], remoteDigests := [] }

/-! ## Protocol messages

Embeddings of the generated `bazel_protos` message types the client
manipulates.  Opaque serialized payloads (`Any.value` byte fields) are
an inductive with a well-formed and a malformed constructor, so that
`merge_from_bytes` is a total decode with an error case. -/

/-- The wire `build.bazel.remote.execution.v2` `Digest` message:
lowercase hex fingerprint string plus an int64 size. -/
structure ProtoDigest where
  hash : String
  sizeBytes : Int
deriving DecidableEq

/-- Conversion of a wire digest into a `hashing::Digest`
(`Fingerprint::from_hex_string` plus the size), as the `into()`
conversions in the source perform it. -/
def protoDigestToDigest (pd : ProtoDigest) : Except String HDigest :=
  match fingerprintFromHex pd.hash with
  | Except.error e => Except.error e
  | Except.ok fp =>
    if pd.sizeBytes < 0 then Except.error ("negative size in digest: " ++ toString pd.sizeBytes)
    else Except.ok { fingerprint := fp, sizeBytes := pd.sizeBytes.toNat }

/-- The reverse conversion used when populating request messages. -/
def digestToProtoDigest (d : HDigest) : ProtoDigest :=
  { hash := bytesToHex d.fingerprint, sizeBytes := Int.ofNat d.sizeBytes }

/-- `google.rpc.PreconditionFailure.Violation`: the `type` field is
`field_type` on the Rust side. -/
structure PfViolation where
  fieldType : String
  subject : String
deriving DecidableEq

/-- `google.rpc.PreconditionFailure`. -/
structure PreconditionFailure where
  violations : List PfViolation
deriving DecidableEq

/-- Opaque bytes of a status detail `Any`: either a serialized
`PreconditionFailure` or junk (indexed so distinct junk exists). -/
inductive DetailPayload where
  | wellFormed (pf : PreconditionFailure)
  | malformed (id : Nat)
deriving DecidableEq

/-- `merge_from_bytes` into a fresh `PreconditionFailure`. -/
def decodePreconditionFailure : DetailPayload → Except String PreconditionFailure
  | DetailPayload.wellFormed pf => Except.ok pf
  | DetailPayload.malformed id => Except.error ("WireError " ++ toString id)

/-- A `google.protobuf.Any` carried in `Status.details`. -/
structure StatusDetail where
  typeUrl : String
  value : DetailPayload
deriving DecidableEq

/-- `google.rpc.Status`. -/
structure RpcStatus where
  code : Int
  message : String
  details : List StatusDetail
deriving DecidableEq

/-- An entry of `ActionResult.output_files`: a path plus either a
digest or inline content. -/
structure ProtoOutputFile where
  path : String
  digest : Option ProtoDigest
  content : RBytes
  isExecutable : Bool
deriving DecidableEq

/-- `build.bazel.remote.execution.v2.ActionResult`; `stdout`/`stderr`
each carry either a digest (`has_*_digest`) or inline raw bytes. -/
structure ActionResult where
  exitCode : Int
  stdoutRaw : RBytes
  stdoutDigest : Option ProtoDigest
  stderrRaw : RBytes
  stderrDigest : Option ProtoDigest
  outputFiles : List ProtoOutputFile
deriving DecidableEq

/-- `build.bazel.remote.execution.v2.ExecuteResponse`. -/
structure ExecuteResponse where
  result : ActionResult
  status : RpcStatus
deriving DecidableEq

/-- Opaque bytes of a completed operation's `response.value`. -/
inductive ResponsePayload where
  | wellFormed (resp : ExecuteResponse)
  | malformed (id : Nat)
deriving DecidableEq

/-- `merge_from_bytes` into a fresh `ExecuteResponse`. -/
def decodeExecuteResponse : ResponsePayload → Except String ExecuteResponse
  | ResponsePayload.wellFormed resp => Except.ok resp
  | ResponsePayload.malformed id => Except.error ("WireError " ++ toString id)

/-- `google.longrunning.Operation`: `error` and `response` are a proto
`oneof`; the client checks them independently, so both appear here as
options. -/
structure Operation where
  name : String
  done : Bool
  error : Option RpcStatus
  response : Option ResponsePayload
deriving DecidableEq

/-! ## Request canonicalization (`make_execute_request`) -/

/-- A `std::path::PathBuf` as the source observes it: either valid
UTF-8 (in which case `to_str` yields its string) or not (indexed so
distinct non-representable paths exist). -/
inductive RPathBuf where
  | utf8 (s : String)
  | nonUtf8 (id : Nat)
deriving DecidableEq

/-- `Path::to_str`. -/
def RPathBuf.toStr : RPathBuf → Option String
  | RPathBuf.utf8 s => some s
  | RPathBuf.nonUtf8 _ => none

/-- The `{:?}` debug rendering of a path used in the error message. -/
def pathRepr : RPathBuf → String
  | RPathBuf.utf8 s => "\x22" ++ s ++ "\x22"
  | RPathBuf.nonUtf8 id => "<non-utf8 path " ++ toString id ++ ">"

/-- `ExecuteProcessRequest`.  `env` is a `BTreeMap` iterated in sorted
key order and `output_files`/`output_directories` are `BTreeSet`s, so
the embedded lists are the iteration sequences (duplicate-free).  The
timeout is in milliseconds. -/
structure ExecuteProcessRequest where
  argv : List String
  env : List (String × String)
  inputFiles : HDigest
  outputFiles : List RPathBuf
  outputDirectories : List RPathBuf
  timeout : Nat
  description : String

/-- `build.bazel.remote.execution.v2.Command`. -/
structure RECommand where
  arguments : List String
  environmentVariables : List (String × String)
deriving DecidableEq

/-- `build.bazel.remote.execution.v2.Action`.  This version of the
client sets only these three fields. -/
structure REAction where
  commandDigest : ProtoDigest
  inputRootDigest : ProtoDigest
  outputFiles : List String
deriving DecidableEq

/-- `build.bazel.remote.execution.v2.ExecuteRequest`. -/
structure REExecuteRequest where
  action : REAction
deriving DecidableEq

/-- Canonical protobuf serialization of a `Command`.  The real encoding
is the generated protobuf writer (out of scope per the design); the
model only needs totality and determinism, so it encodes the fields as
a flat tagged byte list. -/
def encodeCommand (c : RECommand) : RBytes :=
  let encStr := fun (s : String) => s.length :: s.data.map Char.toNat
  List.flatten (c.arguments.map encStr)
    ++ List.flatten (c.environmentVariables.map (fun nv => encStr nv.1 ++ encStr nv.2))

/-- `digest(message)`: serialize, hash, and package as a wire digest. -/
def digestMessage (bytes : RBytes) : ProtoDigest :=
  { hash := bytesToHex (sha256Fingerprint bytes), sizeBytes := Int.ofNat bytes.length }

/-- The `p.to_str()` conversion over the collected `output_files`,
short-circuiting at the first non-UTF-8 path exactly as
`collect::<Result<Vec<_>, _>>()` does. -/
def pathsToStrings : List RPathBuf → Except String (List String)
  | [] => Except.ok []
  | p :: rest =>
    match p.toStr with
    | some s =>
      match pathsToStrings rest with
      | Except.ok ss => Except.ok (s :: ss)
      | Except.error e => Except.error e
    | none => Except.error ("Non-UTF8 output file path: " ++ pathRepr p)

/-- One step of insertion sort with respect to `strLeB`. -/
def insertSorted (x : String) : List String → List String
  | [] => [x]
  | y :: ys => if strLeB x y then x :: y :: ys else y :: insertSorted x ys

/-- `Vec::sort()` on strings.  Rust's sort is a stable mergesort; over
the total order `strLeB` every sorted permutation of a list is unique,
so insertion sort is extensionally the same function. -/
def sortStrings : List String → List String
  | [] => []
  | x :: xs => insertSorted x (sortStrings xs)

/-- `make_execute_request`: build the `Command` (arguments verbatim,
environment in map iteration order), digest it, and build the `Action`
with the sorted output file strings. -/
def makeExecuteRequest (req : ExecuteProcessRequest) :
    Except String (RECommand × REExecuteRequest) :=
  let command : RECommand :=
    { arguments := req.argv, environmentVariables := req.env }
  let commandDigest := digestMessage (encodeCommand command)
  match pathsToStrings req.outputFiles with
  | Except.error e => Except.error e
  | Except.ok outputFileStrings =>
    let action : REAction :=
      { commandDigest := commandDigest
        inputRootDigest := digestToProtoDigest req.inputFiles
        outputFiles := sortStrings outputFileStrings }
    Except.ok (command, { action := action })

/-! ## Error formatting helpers -/

/-- `ExecutionError`: the classifier's internal tagged variant. -/
inductive ExecutionError where
  | fatal (msg : String)
  | missingDigests (digests : List HDigest)
  | notFinished (operationName : String)
deriving DecidableEq

/-- The `google.rpc.Code` enum names used by `Code::from_i32`. -/
def codeEnumName (code : Int) : Option String :=
  if code = 0 then some "OK"
  else if code = 1 then some "CANCELLED"
  else if code = 2 then some "UNKNOWN"
  else if code = 3 then some "INVALID_ARGUMENT"
  else if code = 4 then some "DEADLINE_EXCEEDED"
  else if code = 5 then some "NOT_FOUND"
  else if code = 6 then some "ALREADY_EXISTS"
  else if code = 7 then some "PERMISSION_DENIED"
  else if code = 8 then some "RESOURCE_EXHAUSTED"
  else if code = 9 then some "FAILED_PRECONDITION"
  else if code = 10 then some "ABORTED"
  else if code = 11 then some "OUT_OF_RANGE"
  else if code = 12 then some "UNIMPLEMENTED"
  else if code = 13 then some "INTERNAL"
  else if code = 14 then some "UNAVAILABLE"
  else if code = 15 then some "DATA_LOSS"
  else if code = 16 then some "UNAUTHENTICATED"
  else none

/-- `format_error`: the enum name when the code is known, else the
decimal number, then a colon and the status message. -/
def formatError (st : RpcStatus) : String :=
  (match codeEnumName st.code with
   | some x => x
   | none => toString st.code) ++ ": " ++ st.message

/-- The `grpcio::RpcStatusCode` debug names; values outside the known
range fall back to the catch-all variant. -/
def rpcCodeName (code : Int) : String :=
  if code = 0 then "Ok"
  else if code = 1 then "Cancelled"
  else if code = 3 then "InvalidArgument"
  else if code = 4 then "DeadlineExceeded"
  else if code = 5 then "NotFound"
  else if code = 6 then "AlreadyExists"
  else if code = 7 then "PermissionDenied"
  else if code = 8 then "ResourceExhausted"
  else if code = 9 then "FailedPrecondition"
  else if code = 10 then "Aborted"
  else if code = 11 then "OutOfRange"
  else if code = 12 then "Unimplemented"
  else if code = 13 then "Internal"
  else if code = 14 then "Unavailable"
  else if code = 15 then "DataLoss"
  else if code = 16 then "Unauthenticated"
  else "Unknown"

/-- The `{:?}` rendering of a `hashing::Digest` used in fetch errors. -/
def digestRepr (d : HDigest) : String :=
  "Digest(Fingerprint<" ++ bytesToHex d.fingerprint ++ ">, " ++ toString d.sizeBytes ++ ")"

/-- The `{:?}` rendering of a `PreconditionFailure.Violation`. -/
def violationRepr (v : PfViolation) : String :=
  "type: \x22" ++ v.fieldType ++ "\x22 subject: \x22" ++ v.subject ++ "\x22"

/-- The `{:?}` rendering of a status detail list. -/
def detailsRepr (ds : List StatusDetail) : String :=
  "[" ++ String.intercalate ", " (ds.map (fun d => "type_url: \x22" ++ d.typeUrl ++ "\x22")) ++ "]"

/-! ## Output assembler (`extract_stdout`, `extract_stderr`,
`extract_output_files`) -/

/-- `extract_stdout`: with a digest, load from the store (absence is
fatal); otherwise store the inline bytes locally and return them.  The
store collaborator itself is modelled as infallible, so its transport
error paths (`Error fetching stdout digest`, `Error storing raw
stdout`) do not arise. -/
def extractStdout (store : CasStore) (resp : ExecuteResponse) :
    Except ExecutionError RBytes × CasStore :=
  match resp.result.stdoutDigest with
  | some pd =>
    match protoDigestToDigest pd with
    | Except.error err =>
      (Except.error (ExecutionError.fatal ("Error extracting stdout: " ++ err)), store)
    | Except.ok d =>
      match store.loadFileBytes d with
      | some v => (Except.ok v, store)
      | none =>
        (Except.error (ExecutionError.fatal
          ("Couldn't find stdout digest (" ++ digestRepr d ++ "), when fetching.")), store)
  | none =>
    let s1 := (store.storeFileBytes resp.result.stdoutRaw true).2
    (Except.ok resp.result.stdoutRaw, s1)

/-- `extract_stderr`: identical policy to stdout. -/
def extractStderr (store : CasStore) (resp : ExecuteResponse) :
    Except ExecutionError RBytes × CasStore :=
  match resp.result.stderrDigest with
  | some pd =>
    match protoDigestToDigest pd with
    | Except.error err =>
      (Except.error (ExecutionError.fatal ("Error extracting stderr: " ++ err)), store)
    | Except.ok d =>
      match store.loadFileBytes d with
      | some v => (Except.ok v, store)
      | none =>
        (Except.error (ExecutionError.fatal
          ("Couldn't find stderr digest (" ++ digestRepr d ++ "), when fetching.")), store)
  | none =>
    let s1 := (store.storeFileBytes resp.result.stderrRaw true).2
    (Except.ok resp.result.stderrRaw, s1)

/-- A `fs::PathStat::file` entry as built for each output file. -/
structure PathStat where
  path : String
  isExecutable : Bool
deriving DecidableEq

/-- First pass of `extract_output_files`: walk the entries in server
order building the `PathStat` list, the digest-carrying map entries,
and the pending inline uploads; a bad wire digest short-circuits the
`collect` before any upload future is polled. -/
def collectOutputFiles : List ProtoOutputFile →
    Except String (List PathStat × List (String × HDigest) × List (String × RBytes))
  | [] => Except.ok ([], [], [])
  | f :: rest =>
    match f.digest with
    | some pd =>
      match protoDigestToDigest pd with
      | Except.error e => Except.error e
      | Except.ok d =>
        match collectOutputFiles rest with
        | Except.error e => Except.error e
        | Except.ok (ps, dm, im) =>
          Except.ok ({ path := f.path, isExecutable := f.isExecutable } :: ps, (f.path, d) :: dm, im)
    | none =>
      match collectOutputFiles rest with
      | Except.error e => Except.error e
      | Except.ok (ps, dm, im) =>
        Except.ok ({ path := f.path, isExecutable := f.isExecutable } :: ps, dm, (f.path, f.content) :: im)

/-- Join of the inline-content upload tasks: store each inline blob
(non-canonicalized) and record its digest under its path. -/
def storeInlineFiles (store : CasStore) :
    List (String × RBytes) → CasStore × List (String × HDigest)
  | [] => (store, [])
  | (p, b) :: rest =>
    let r := store.storeFileBytes b false
    let s2m := storeInlineFiles r.2 rest
    (s2m.1, (p, r.1) :: s2m.2)

/-- Lookup in the path-to-digest map (`HashMap` with last insert
winning, hence first match over the reversed insertion sequence). -/
def lookupPath : List (String × HDigest) → String → Option HDigest
  | [], _ => none
  | (p, d) :: rest, q => if p = q then some d else lookupPath rest q

/-- One step of insertion sort of directory entries by path. -/
def insertEntry (x : String × HDigest × Bool) :
    List (String × HDigest × Bool) → List (String × HDigest × Bool)
  | [] => [x]
  | y :: ys => if strLeB x.1 y.1 then x :: y :: ys else y :: insertEntry x ys

/-- Canonical ordering of directory entries by path. -/
def sortEntries : List (String × HDigest × Bool) → List (String × HDigest × Bool)
  | [] => []
  | x :: xs => insertEntry x (sortEntries xs)

/-- Canonical byte encoding of a resolved directory entry list. -/
def encodeDirectory (entries : List (String × HDigest × Bool)) : RBytes :=
  List.flatten (entries.map (fun e =>
    e.1.length :: e.1.data.map Char.toNat
      ++ e.2.1.fingerprint ++ [e.2.1.sizeBytes, if e.2.2 then 1 else 0]))

/-- The digest describing a directory with the given resolved entries. -/
def directoryDigest (entries : List (String × HDigest × Bool)) : HDigest :=
  digestOf (encodeDirectory entries)

/-- `fs::EMPTY_DIGEST`: the digest of the empty directory. -/
def EMPTY_DIGEST : HDigest := directoryDigest []

/-- Resolution of each `PathStat` through the per-file digest resolver
(`StoreOneOffRemoteDigest::store_by_digest`), with its error message. -/
def resolvePathStats (digester : String → Option HDigest) :
    List PathStat → Except String (List (String × HDigest × Bool))
  | [] => Except.ok []
  | ps :: rest =>
    match digester ps.path with
    | none =>
      Except.error ("Didn't know digest for path in remote execution response: \x22"
        ++ ps.path ++ "\x22")
    | some d =>
      match resolvePathStats digester rest with
      | Except.error e => Except.error e
      | Except.ok es => Except.ok ((ps.path, d, ps.isExecutable) :: es)

/-- Modelled from the spec: `fs::Snapshot::digest_from_path_stats`, the
snapshot-builder collaborator, whose implementation lives outside this
crate.  Per the design it resolves each file's digest through the
supplied resolver and materializes the tree under a canonical ordering
defined by the builder; the resulting tree digest is abstracted here as
the idealized digest of the canonically ordered resolved entries. -/
def digestFromPathStats (digester : String → Option HDigest) (pathStats : List PathStat) :
    Except String HDigest :=
  match resolvePathStats digester pathStats with
  | Except.error e => Except.error e
  | Except.ok entries => Except.ok (directoryDigest (sortEntries entries))

/-- `extract_output_files`: collect entries, run the inline uploads,
assemble the path-to-digest map in insertion order, and invoke the
snapshot builder. -/
def extractOutputFiles (store : CasStore) (resp : ExecuteResponse) :
    Except ExecutionError HDigest × CasStore :=
  match collectOutputFiles resp.result.outputFiles with
  | Except.error e => (Except.error (ExecutionError.fatal e), store)
  | Except.ok (pathStats, digestEntries, inlineEntries) =>
    let r := storeInlineFiles store inlineEntries
    let pathMap := (digestEntries ++ r.2).foldl (fun m e => e :: m) []
    match digestFromPathStats (lookupPath pathMap) pathStats with
    | Except.error e =>
      (Except.error (ExecutionError.fatal
        ("Error when storing the output file directory info in the remote CAS: \x22"
          ++ e ++ "\x22")), r.1)
    | Except.ok d => (Except.ok d, r.1)

/-! ## Response classification (`extract_execute_response`) -/

/-- `FallibleExecuteProcessResult`. -/
structure FallibleExecuteProcessResult where
  stdout : RBytes
  stderr : RBytes
  exitCode : Int
  outputDirectory : HDigest
deriving DecidableEq

/-- `"type.googleapis.com/" + PreconditionFailure.full_name`. -/
def preconditionFailureTypeUrl : String :=
  "type.googleapis.com/google.rpc.PreconditionFailure"

/-- Processing of one violation inside the `FAILED_PRECONDITION` loop:
type must be `MISSING`, the subject must split into
`["blobs", fingerprint, size]`, and both parts must parse. -/
def parseViolation (v : PfViolation) : Except ExecutionError HDigest :=
  if v.fieldType ≠ "MISSING" then
    Except.error (ExecutionError.fatal
      ("Didn't know how to process PreconditionFailure violation: " ++ violationRepr v))
  else
    match splitSlash v.subject with
    | [p0, p1, p2] =>
      if p0 ≠ "blobs" then
        Except.error (ExecutionError.fatal
          ("Received FailedPrecondition MISSING but didn't recognize subject " ++ v.subject))
      else
        match fingerprintFromHex p1 with
        | Except.error e =>
          Except.error (ExecutionError.fatal ("Bad digest in missing blob: " ++ p1 ++ ": " ++ e))
        | Except.ok fp =>
          match parseUsize p2 with
          | Except.error e =>
            Except.error (ExecutionError.fatal ("Missing blob had bad size: " ++ p2 ++ ": " ++ e))
          | Except.ok n => Except.ok { fingerprint := fp, sizeBytes := n }
    | _ =>
      Except.error (ExecutionError.fatal
        ("Received FailedPrecondition MISSING but didn't recognize subject " ++ v.subject))

/-- The violation loop: digests accumulate in server order and the
first bad violation short-circuits. -/
def parseViolations : List PfViolation → Except ExecutionError (List HDigest)
  | [] => Except.ok []
  | v :: rest =>
    match parseViolation v with
    | Except.error e => Except.error e
    | Except.ok d =>
      match parseViolations rest with
      | Except.error e => Except.error e
      | Except.ok ds => Except.ok (d :: ds)

/-- The status-code match at the tail of `extract_execute_response`,
taking the already-extracted stdout, stderr and output directory. -/
def classifyStatus (resp : ExecuteResponse) (stdoutB stderrB : RBytes) (outDir : HDigest) :
    Except ExecutionError FallibleExecuteProcessResult :=
  if resp.status.code = 0 then
    Except.ok
      { stdout := stdoutB, stderr := stderrB
        exitCode := resp.result.exitCode, outputDirectory := outDir }
  else if resp.status.code = 9 then
    match resp.status.details with
    | [detail] =>
      if detail.typeUrl ≠ preconditionFailureTypeUrl then
        Except.error (ExecutionError.fatal
          ("Received FailedPrecondition, but didn't know how to resolve it: "
            ++ resp.status.message ++ ",protobuf type " ++ detail.typeUrl))
      else
        match decodePreconditionFailure detail.value with
        | Except.error e =>
          Except.error (ExecutionError.fatal
            ("Error deserializing FailedPrecondition proto: " ++ e))
        | Except.ok pf =>
          match parseViolations pf.violations with
          | Except.error e => Except.error e
          | Except.ok ds =>
            if ds.length = 0 then
              Except.error (ExecutionError.fatal
                "Error from remote execution: FailedPrecondition, but no details")
            else Except.error (ExecutionError.missingDigests ds)
    | other =>
      Except.error (ExecutionError.fatal
        ("Received multiple details in FailedPrecondition ExecuteResponse's status field: "
          ++ detailsRepr other))
  else
    Except.error (ExecutionError.fatal
      ("Error from remote execution: " ++ rpcCodeName resp.status.code
        ++ ": \x22" ++ resp.status.message ++ "\x22"))

/-- The `join` of the three extraction futures, embedded as
left-to-right sequencing with store threading; the first error
observed is the join's error. -/
def extractParts (store : CasStore) (resp : ExecuteResponse) :
    Except ExecutionError (RBytes × RBytes × HDigest) × CasStore :=
  match extractStdout store resp with
  | (Except.error e, s) => (Except.error e, s)
  | (Except.ok stdoutB, s1) =>
    match extractStderr s1 resp with
    | (Except.error e, s) => (Except.error e, s)
    | (Except.ok stderrB, s2) =>
      match extractOutputFiles s2 resp with
      | (Except.error e, s) => (Except.error e, s)
      | (Except.ok outDir, s3) => (Except.ok (stdoutB, stderrB, outDir), s3)

/-- `extract_execute_response`: the ordered checks on the operation,
decode of the nested response, the three extractions (joined before
the status is inspected), then the status match. -/
def extractExecuteResponse (store : CasStore) (op : Operation) :
    Except ExecutionError FallibleExecuteProcessResult × CasStore :=
  if op.done then
    match op.error with
    | some st => (Except.error (ExecutionError.fatal (formatError st)), store)
    | none =>
      match op.response with
      | none =>
        (Except.error (ExecutionError.fatal "Operation finished but no response supplied"), store)
      | some payload =>
        match decodeExecuteResponse payload with
        | Except.error e =>
          (Except.error (ExecutionError.fatal ("Invalid ExecuteResponse: " ++ e)), store)
        | Except.ok resp =>
          match extractParts store resp with
          | (Except.error e, s) => (Except.error e, s)
          | (Except.ok parts, s) => (classifyStatus resp parts.1 parts.2.1 parts.2.2, s)
  else (Except.error (ExecutionError.notFinished op.name), store)

/-! ## Execution driver (`run`'s polling loop)

The loop in `run` is embedded with its environment made explicit: the
successive operations the server returns (one per `Execute`
re-submission or `GetOperation` poll, in order) and the elapsed time
`start_time.elapsed()` observed at each deadline check, in
milliseconds.  The externally visible RPC, upload and sleep steps are
recorded as an event trace.  An exhausted script stands for a failing
RPC, which `map_grpc_result` turns into an error. -/

/-- `CommandRunner::BACKOFF_INCR_WAIT_MILLIS`. -/
def BACKOFF_INCR_WAIT_MILLIS : Nat := 500

/-- `CommandRunner::BACKOFF_MAX_WAIT_MILLIS`. -/
def BACKOFF_MAX_WAIT_MILLIS : Nat := 5000

/-- The backoff computed before the `iter_num`-th poll. -/
def backoffPeriod (iterNum : Nat) : Nat :=
  min BACKOFF_MAX_WAIT_MILLIS ((1 + iterNum) * BACKOFF_INCR_WAIT_MILLIS)

/-- Fractional second rendering: pad to three digits, trim trailing
zeros. -/
def fracRepr (f : Nat) : String :=
  let padded := (if f < 10 then "00" else if f < 100 then "0" else "") ++ toString f
  String.mk (((padded.data.reverse).dropWhile (fun c => c = '0')).reverse)

/-- The `{:?}` rendering of a `std::time::Duration` held in
milliseconds. -/
def durationRepr (ms : Nat) : String :=
  if 1000 ≤ ms then
    if ms % 1000 = 0 then toString (ms / 1000) ++ "s"
    else toString (ms / 1000) ++ "." ++ fracRepr (ms % 1000) ++ "s"
  else toString ms ++ "ms"

/-- The timeout error built when the deadline check fails. -/
def timeoutMsg (timeout elapsed : Nat) (operationName desc : String) : String :=
  "Exceeded time out of " ++ durationRepr timeout ++ " with " ++ durationRepr elapsed
    ++ " for operation " ++ operationName ++ ", " ++ desc

/-- The externally visible steps of the polling loop. -/
inductive DriverEvent where
  | ensureRemote (digests : List HDigest)
  | executeCall
  | sleep (millis : Nat)
  | getOperation (operationName : String)
deriving DecidableEq

/-- The possible outcomes of one turn of the loop body. -/
inductive LoopOutcome where
  | finished (r : Except String FallibleExecuteProcessResult)
  | resubmit (digests : List HDigest)
  | poll (backoff : Nat) (operationName : String)
  | timedOut (msg : String)
deriving DecidableEq

/-- One turn of the body of `future::loop_fn` in `run`: classify the
current operation, then break with a result, fail, upload the missing
digests for a re-submission, or check the deadline and schedule a
sleep-then-poll. -/
def driveStep (timeout : Nat) (desc : String) (elapsed : Nat) (store : CasStore)
    (op : Operation) (iterNum : Nat) : LoopOutcome × CasStore :=
  match extractExecuteResponse store op with
  | (Except.ok result, s1) => (LoopOutcome.finished (Except.ok result), s1)
  | (Except.error (ExecutionError.fatal msg), s1) =>
    (LoopOutcome.finished (Except.error msg), s1)
  | (Except.error (ExecutionError.missingDigests ds), s1) =>
    (LoopOutcome.resubmit ds, s1.ensureRemoteHasRecursive ds)
  | (Except.error (ExecutionError.notFinished opName), s1) =>
    if timeout < elapsed then
      (LoopOutcome.timedOut (timeoutMsg timeout elapsed opName desc), s1)
    else (LoopOutcome.poll (backoffPeriod iterNum) opName, s1)

/-- The polling loop, by recursion on the remaining server script: a
re-submission (`Execute`) or a poll (`GetOperation`) each consume the
next scripted operation; an exhausted script is a failing RPC. -/
def driveLoop (timeout : Nat) (desc : String) (elapsedAt : Nat → Nat) :
    List Operation → Nat → CasStore → Operation → Nat →
    Except String FallibleExecuteProcessResult × List DriverEvent × CasStore
  | [], checkIdx, store, op, iterNum =>
    match driveStep timeout desc (elapsedAt checkIdx) store op iterNum with
    | (LoopOutcome.finished r, s) => (r, [], s)
    | (LoopOutcome.timedOut m, s) => (Except.error m, [], s)
    | (LoopOutcome.resubmit ds, s) =>
      (Except.error "RpcFailure: Execute got no response",
        [DriverEvent.ensureRemote ds, DriverEvent.executeCall], s)
    | (LoopOutcome.poll b n, s) =>
      (Except.error "RpcFailure: GetOperation got no response",
        [DriverEvent.sleep b, DriverEvent.getOperation n], s)
  | nextOp :: rest, checkIdx, store, op, iterNum =>
    match driveStep timeout desc (elapsedAt checkIdx) store op iterNum with
    | (LoopOutcome.finished r, s) => (r, [], s)
    | (LoopOutcome.timedOut m, s) => (Except.error m, [], s)
    | (LoopOutcome.resubmit ds, s) =>
      let r := driveLoop timeout desc elapsedAt rest checkIdx s nextOp 0
      (r.1, DriverEvent.ensureRemote ds :: DriverEvent.executeCall :: r.2.1, r.2.2)
    | (LoopOutcome.poll b n, s) =>
      let r := driveLoop timeout desc elapsedAt rest (checkIdx + 1) s nextOp (iterNum + 1)
      (r.1, DriverEvent.sleep b :: DriverEvent.getOperation n :: r.2.1, r.2.2)

/-- The sleeps of an event trace, in order. -/
def sleepsOf (events : List DriverEvent) : List Nat :=
  events.filterMap (fun e =>
    match e with
    | DriverEvent.sleep m => some m
    | _ => none)

/-! ## The claim-side reading of FAILED_PRECONDITION classification

A second definition written from the specification's words, to be
compared with the embedded code path: the digest list the status
carries when and only when every condition of the spec holds. -/

/-- Spec reading of one violation: type `MISSING` and a subject
splitting into exactly `["blobs", fingerprint, size]` with both parts
parseable. -/
def specViolationDigest (v : PfViolation) : Option HDigest :=
  if v.fieldType = "MISSING" then
    match splitSlash v.subject with
    | [p0, p1, p2] =>
      if p0 = "blobs" then
        match fingerprintFromHex p1, parseUsize p2 with
        | Except.ok fp, Except.ok n => some { fingerprint := fp, sizeBytes := n }
        | _, _ => none
      else none
    | _ => none
  else none

/-- Spec reading of the violation list: every violation parses, in
server order. -/
def specViolationDigests : List PfViolation → Option (List HDigest)
  | [] => some []
  | v :: rest =>
    match specViolationDigest v, specViolationDigests rest with
    | some d, some ds => some (d :: ds)
    | _, _ => none

/-- Spec reading of the whole status: exactly one details entry, with
the `PreconditionFailure` type URL, decoding successfully, with a
non-empty violation list all of whose violations parse. -/
def specMissingDigests (resp : ExecuteResponse) : Option (List HDigest) :=
  match resp.status.details with
  | [detail] =>
    if detail.typeUrl = preconditionFailureTypeUrl then
      match decodePreconditionFailure detail.value with
      | Except.ok pf =>
        if pf.violations.isEmpty then none
        else specViolationDigests pf.violations
      | Except.error _ => none
    else none
  | _ => none

/-- Local presence of content under its own digest. -/
def hasContent (st : CasStore) (b : RBytes) : Prop :=
  st.loadFileBytes (digestOf b) = some b

instance (st : CasStore) (b : RBytes) : Decidable (hasContent st b) :=
  inferInstanceAs (Decidable (st.loadFileBytes (digestOf b) = some b))

/-! ## Concrete sample values

Inputs mirroring the repository's own test fixtures, used to exercise
the theorems on concrete data. -/

/-- 64 zero hex characters: a parseable fingerprint string. -/
def hex64Zeros : String := String.mk (List.replicate 64 '0')

/-- The digest `blobs/000...0/10` parses to. -/
def sampleMissingDigest : HDigest := { fingerprint := List.replicate 32 0, sizeBytes := 10 }

/-- A well-formed MISSING violation. -/
def sampleViolation : PfViolation :=
  { fieldType := "MISSING", subject := "blobs/" ++ hex64Zeros ++ "/10" }

/-- A status detail carrying one well-formed MISSING violation. -/
def samplePfDetail : StatusDetail :=
  { typeUrl := preconditionFailureTypeUrl
    value := DetailPayload.wellFormed { violations := [sampleViolation] } }

/-- An `ActionResult` with no outputs at all. -/
def emptyActionResult : ActionResult :=
  { exitCode := 0, stdoutRaw := [], stdoutDigest := none
    stderrRaw := [], stderrDigest := none, outputFiles := [] }

/-- A FAILED_PRECONDITION response with one well-formed MISSING detail
and inline stdout bytes `[104, 105]`. -/
def pfInlineResponse : ExecuteResponse :=
  { result := { emptyActionResult with stdoutRaw := [104, 105] }
    status := { code := 9, message := "", details := [samplePfDetail] } }

/-- The completed operation carrying `pfInlineResponse`. -/
def pfOperationInline : Operation :=
  { name := "cat", done := true, error := none
    response := some (ResponsePayload.wellFormed pfInlineResponse) }

/-- The store after extracting `pfInlineResponse` from the empty store:
the inline stdout and the empty stderr are persisted. -/
def pfInlineFinalStore : CasStore :=
  { localBlobs := [(digestOf [], []), (digestOf [104, 105], [104, 105])]
    remoteDigests := [] }

/-- The digest referenced by `pfBadStdoutResponse`'s stdout. -/
def sampleStdoutDigest : HDigest := { fingerprint := List.replicate 32 0, sizeBytes := 1 }

/-- A FAILED_PRECONDITION response as above, except the `ActionResult`
references a stdout digest that is nowhere in the local store. -/
def pfBadStdoutResponse : ExecuteResponse :=
  { result := { emptyActionResult with
      stdoutDigest := some { hash := hex64Zeros, sizeBytes := 1 } }
    status := { code := 9, message := "", details := [samplePfDetail] } }

/-- The completed operation carrying `pfBadStdoutResponse`. -/
def pfOperationBadStdout : Operation :=
  { name := "cat", done := true, error := none
    response := some (ResponsePayload.wellFormed pfBadStdoutResponse) }

/-- A successful response: status OK, exit code 17, inline stdout
`[1, 2]` and stderr `[3]`, no output files. -/
def sampleOkResponse : ExecuteResponse :=
  { result := { exitCode := 17, stdoutRaw := [1, 2], stdoutDigest := none
                stderrRaw := [3], stderrDigest := none, outputFiles := [] }
    status := { code := 0, message := "", details := [] } }

/-- The completed operation carrying `sampleOkResponse`. -/
def sampleOkOperation : Operation :=
  { name := "gimme-foo", done := true, error := none
    response := some (ResponsePayload.wellFormed sampleOkResponse) }

/-- The store after extracting `sampleOkResponse` from the empty
store. -/
def sampleOkFinalStore : CasStore :=
  { localBlobs := [(digestOf [3], [3]), (digestOf [1, 2], [1, 2])]
    remoteDigests := [] }

/-- A not-yet-finished operation. -/
def notFinishedOperation : Operation :=
  { name := "gimme-foo", done := false, error := none, response := none }

/-- The canonical-request fixture: unsorted output files, valid UTF-8
paths. -/
def sampleRequest : ExecuteProcessRequest :=
  { argv := ["/bin/echo", "yo"], env := [("SOME", "value")]
    inputFiles := { fingerprint := List.replicate 32 171, sizeBytes := 30 }
    outputFiles := [RPathBuf.utf8 "path/to/file", RPathBuf.utf8 "other/file"]
    outputDirectories := [], timeout := 1000, description := "some description" }

/-- A request with one valid path followed by a non-UTF-8 path. -/
def badPathRequest : ExecuteProcessRequest :=
  { argv := ["/bin/echo", "yo"], env := []
    inputFiles := { fingerprint := List.replicate 32 171, sizeBytes := 30 }
    outputFiles := [RPathBuf.utf8 "good/file", RPathBuf.nonUtf8 7]
    outputDirectories := [], timeout := 1000, description := "bad path" }

/-- A store already holding bytes `[9]` under the digest
`sampleStdoutDigest` (the one `hex64Zeros`/size-1 parses to). -/
def mixedStore : CasStore :=
  { localBlobs := [(sampleStdoutDigest, [9])], remoteDigests := [] }

/-- A mixed successful response: stdout carried by a digest (present in
`mixedStore`), stderr inline as `[42]`. -/
def mixedResponse : ExecuteResponse :=
  { result := { exitCode := 0, stdoutRaw := []
                stdoutDigest := some { hash := hex64Zeros, sizeBytes := 1 }
                stderrRaw := [42], stderrDigest := none, outputFiles := [] }
    status := { code := 0, message := "", details := [] } }

/-- An OK-status response with the nonzero exit code 17 whose
ActionResult references a stdout digest that is nowhere in the local
store. -/
def okBadStdoutResponse : ExecuteResponse :=
  { result := { exitCode := 17, stdoutRaw := []
                stdoutDigest := some { hash := hex64Zeros, sizeBytes := 1 }
                stderrRaw := [], stderrDigest := none, outputFiles := [] }
    status := { code := 0, message := "", details := [] } }

/-- The completed operation carrying `okBadStdoutResponse`. -/
def okBadStdoutOperation : Operation :=
  { name := "cat", done := true, error := none
    response := some (ResponsePayload.wellFormed okBadStdoutResponse) }

/-- The `Command` value `make_execute_request` builds for a request. -/
def builtCommand (req : ExecuteProcessRequest) : RECommand :=
  { arguments := req.argv, environmentVariables := req.env }

/-- The `ExecuteRequest` value `make_execute_request` builds, given the
already-sorted output file strings. -/
def builtExecuteRequest (req : ExecuteProcessRequest) (ofs : List String) : REExecuteRequest :=
  { action :=
      { commandDigest := digestMessage (encodeCommand (builtCommand req))
        inputRootDigest := digestToProtoDigest req.inputFiles
        outputFiles := ofs } }

theorem digestOf_injective : Function.Injective digestOf := by
  intro a b h
  exact congrArg HDigest.fingerprint h


/-! ## Order facts about the string comparator -/

theorem charEqOfNotLt {a b : Char} (h1 : ¬ a < b) (h2 : ¬ b < a) : a = b :=
  le_antisymm (not_lt.mp h2) (not_lt.mp h1)

theorem listLtB_irrefl : ∀ (as : List Char), listLtB as as = false
  | [] => rfl
  | a :: as => by simp [listLtB, lt_irrefl, listLtB_irrefl as]

theorem listLtB_asymm : ∀ {as bs : List Char}, listLtB as bs = true → listLtB bs as = false
  | [], [], h => by simp [listLtB] at h
  | [], _ :: _, _ => rfl
  | _ :: _, [], h => by simp [listLtB] at h
  | a :: as, b :: bs, h => by
    by_cases hab : a < b
    · have hba : ¬ b < a := fun hc => absurd (lt_trans hab hc) (lt_irrefl a)
      simp [listLtB, hab, hba]
    · by_cases hba : b < a
      · simp [listLtB, hab, hba] at h
      · cases charEqOfNotLt hab hba
        simp [listLtB, hab] at h ⊢
        exact listLtB_asymm h

theorem listLtB_eq_of_both_false :
    ∀ {as bs : List Char}, listLtB as bs = false → listLtB bs as = false → as = bs
  | [], [], _, _ => rfl
  | [], _ :: _, h1, _ => by simp [listLtB] at h1
  | _ :: _, [], _, h2 => by simp [listLtB] at h2
  | a :: as, b :: bs, h1, h2 => by
    by_cases hab : a < b
    · simp [listLtB, hab] at h1
    · by_cases hba : b < a
      · simp [listLtB, hba, hab] at h2
      · cases charEqOfNotLt hab hba
        simp [listLtB, hab] at h1 h2
        exact congrArg (a :: ·) (listLtB_eq_of_both_false h1 h2)

theorem listLtB_trans :
    ∀ {as bs cs : List Char},
      listLtB as bs = true → listLtB bs cs = true → listLtB as cs = true
  | [], [], _, h1, _ => by simp [listLtB] at h1
  | [], _ :: _, [], _, h2 => by simp [listLtB] at h2
  | [], _ :: _, _ :: _, _, _ => rfl
  | _ :: _, [], _, h1, _ => by simp [listLtB] at h1
  | _ :: _, _ :: _, [], _, h2 => by simp [listLtB] at h2
  | a :: as, b :: bs, c :: cs, h1, h2 => by
    by_cases hab : a < b
    · by_cases hbc : b < c
      · have hac : a < c := lt_trans hab hbc
        simp [listLtB, hac]
      · by_cases hcb : c < b
        · simp [listLtB, hbc, hcb] at h2
        · have heq : b = c := charEqOfNotLt hbc hcb
          rw [← heq]
          simp [listLtB, hab]
    · by_cases hba : b < a
      · simp [listLtB, hab, hba] at h1
      · have heq : a = b := charEqOfNotLt hab hba
        simp [listLtB, hab, hba] at h1
        by_cases hbc : b < c
        · have hac : a < c := heq ▸ hbc
          simp [listLtB, hac]
        · by_cases hcb : c < b
          · simp [listLtB, hbc, hcb] at h2
          · have heq2 : b = c := charEqOfNotLt hbc hcb
            simp [listLtB, hbc, hcb] at h2
            rw [heq.trans heq2]
            simp [listLtB, lt_irrefl]
            exact listLtB_trans h1 h2

theorem strLtB_asymm {s t : String} (h : strLtB s t = true) : strLtB t s = false :=
  listLtB_asymm h

theorem strEqOfNotLtB {s t : String} (h1 : strLtB s t = false) (h2 : strLtB t s = false) :
    s = t :=
  String.ext (listLtB_eq_of_both_false h1 h2)

theorem strLtB_trans {s t u : String} (h1 : strLtB s t = true) (h2 : strLtB t u = true) :
    strLtB s u = true :=
  listLtB_trans h1 h2

/-- Derived transitivity used for sortedness: if `x` is below `y` and
`y` below `z` in the weak order, `x` is below `z`. -/
theorem strLeB_trans {x y z : String} (h1 : strLtB y x = false) (h2 : strLtB z y = false) :
    strLtB z x = false := by
  cases hzx : strLtB z x with
  | false => rfl
  | true =>
    cases hzy : strLtB z y with
    | true => rw [hzy] at h2; exact h2
    | false =>
      cases hyz : strLtB y z with
      | false =>
        cases strEqOfNotLtB hyz hzy
        rw [hzx] at h1
        exact h1
      | true =>
        cases hyx : strLtB y x with
        | true => rw [hyx] at h1; exact h1
        | false =>
          cases hxy : strLtB x y with
          | false =>
            cases strEqOfNotLtB hxy hyx
            rw [hzx] at hzy
            exact hzy
          | true =>
            have h3 := strLtB_trans hxy (strLtB_trans hyz hzx)
            have h0 : strLtB x x = false := listLtB_irrefl x.data
            rw [h0] at h3
            simp at h3

/-! ## Sortedness of the output-file sort -/

theorem mem_insertSorted {x y : String} :
    ∀ {l : List String}, y ∈ insertSorted x l → y = x ∨ y ∈ l := by
  intro l
  induction l with
  | nil =>
    intro h
    simp [insertSorted] at h
    exact Or.inl h
  | cons z zs ih =>
    intro h
    simp only [insertSorted] at h
    by_cases hc : strLeB x z = true
    · rw [if_pos hc] at h
      rcases List.mem_cons.mp h with h | h
      · exact Or.inl h
      · exact Or.inr h
    · rw [if_neg hc] at h
      rcases List.mem_cons.mp h with h | h
      · exact Or.inr (h ▸ List.mem_cons_self z zs)
      · rcases ih h with h' | h'
        · exact Or.inl h'
        · exact Or.inr (List.mem_cons_of_mem z h')

theorem pairwise_insertSorted {x : String} :
    ∀ {l : List String}, List.Pairwise (fun a b => strLtB b a = false) l →
      List.Pairwise (fun a b => strLtB b a = false) (insertSorted x l) := by
  intro l
  induction l with
  | nil => intro _; simpa [insertSorted] using List.pairwise_singleton _ x
  | cons y ys ih =>
    intro h
    rcases List.pairwise_cons.mp h with ⟨hy, hys⟩
    simp only [insertSorted]
    by_cases hc : strLeB x y = true
    · rw [if_pos hc]
      have hxy : strLtB y x = false := by
        have : (! strLtB y x) = true := hc
        simpa using this
      refine List.pairwise_cons.mpr ⟨?_, h⟩
      intro z hz
      rcases List.mem_cons.mp hz with rfl | hzys
      · exact hxy
      · exact strLeB_trans hxy (hy z hzys)
    · rw [if_neg hc]
      have hyx' : strLtB y x = true := by
        have hb : ¬ ((! strLtB y x) = true) := hc
        simpa using hb
      have hyx : strLtB x y = false := strLtB_asymm hyx'
      refine List.pairwise_cons.mpr ⟨?_, ih hys⟩
      intro z hz
      rcases mem_insertSorted hz with rfl | hzys
      · exact hyx
      · exact hy z hzys

theorem perm_insertSorted (x : String) :
    ∀ (l : List String), List.Perm (insertSorted x l) (x :: l) := by
  intro l
  induction l with
  | nil => simp [insertSorted]
  | cons y ys ih =>
    simp only [insertSorted]
    by_cases hc : strLeB x y = true
    · rw [if_pos hc]
    · rw [if_neg hc]
      exact List.Perm.trans (List.Perm.cons y ih) (List.Perm.swap x y ys)

theorem perm_sortStrings : ∀ (l : List String), List.Perm (sortStrings l) l
  | [] => List.Perm.refl []
  | x :: xs =>
    List.Perm.trans (perm_insertSorted x (sortStrings xs))
      (List.Perm.cons x (perm_sortStrings xs))

theorem pairwise_sortStrings :
    ∀ (l : List String), List.Pairwise (fun a b => strLtB b a = false) (sortStrings l)
  | [] => List.Pairwise.nil
  | x :: xs => pairwise_insertSorted (pairwise_sortStrings xs)

/-- A weakly sorted duplicate-free list is strictly sorted. -/
theorem pairwise_strict_of_nodup {l : List String}
    (hs : List.Pairwise (fun a b => strLtB b a = false) l) (hn : l.Nodup) :
    List.Pairwise (fun a b => strLtB a b = true) l := by
  have := List.Pairwise.and hs hn
  refine this.imp ?_
  intro a b hab
  cases hlt : strLtB a b with
  | true => rfl
  | false => exact absurd (strEqOfNotLtB hlt hab.1) hab.2


/-! ## Facts about the output-path conversion -/

theorem pathsToStrings_ok_of_all :
    ∀ {ps : List RPathBuf}, (∀ p ∈ ps, p.toStr.isSome = true) →
      ∃ ss, pathsToStrings ps = Except.ok ss := by
  intro ps
  induction ps with
  | nil => intro _; exact ⟨[], rfl⟩
  | cons p rest ih =>
    intro hall
    have hp := hall p (List.mem_cons_self p rest)
    obtain ⟨s, hs⟩ := Option.isSome_iff_exists.mp hp
    obtain ⟨ss, hss⟩ := ih (fun q hq => hall q (List.mem_cons_of_mem p hq))
    exact ⟨s :: ss, by simp [pathsToStrings, hs, hss]⟩

theorem pathsToStrings_all_of_ok :
    ∀ {ps : List RPathBuf} {ss}, pathsToStrings ps = Except.ok ss →
      ∀ p ∈ ps, p.toStr.isSome = true := by
  intro ps
  induction ps with
  | nil => intro ss _ p hp; cases hp
  | cons q rest ih =>
    intro ss h p hp
    cases hq : q.toStr with
    | none => simp [pathsToStrings, hq] at h
    | some s =>
      rcases List.mem_cons.mp hp with rfl | hrest
      · simp [hq]
      · cases hrest' : pathsToStrings rest with
        | error e => simp [pathsToStrings, hq, hrest'] at h
        | ok ss' => exact ih hrest' p hrest

theorem pathsToStrings_mem :
    ∀ {ps : List RPathBuf} {ss}, pathsToStrings ps = Except.ok ss →
      ∀ s ∈ ss, ∃ p, p ∈ ps ∧ p.toStr = some s := by
  intro ps
  induction ps with
  | nil =>
    intro ss h s hs
    cases h
    cases hs
  | cons q rest ih =>
    intro ss h s hs
    cases hq : q.toStr with
    | none => simp [pathsToStrings, hq] at h
    | some t =>
      cases hrest : pathsToStrings rest with
      | error e => simp [pathsToStrings, hq, hrest] at h
      | ok ss' =>
        simp [pathsToStrings, hq, hrest] at h
        cases h
        rcases List.mem_cons.mp hs with rfl | hs'
        · exact ⟨q, List.mem_cons_self q rest, hq⟩
        · obtain ⟨p, hp, hp2⟩ := ih hrest s hs'
          exact ⟨p, List.mem_cons_of_mem q hp, hp2⟩

theorem toStr_inj {p q : RPathBuf} {s : String}
    (hp : p.toStr = some s) (hq : q.toStr = some s) : p = q := by
  cases p with
  | utf8 a => cases q with
    | utf8 b =>
      cases hp
      cases hq
      rfl
    | nonUtf8 _ => cases hq
  | nonUtf8 _ => cases hp

theorem pathsToStrings_nodup :
    ∀ {ps : List RPathBuf} {ss}, pathsToStrings ps = Except.ok ss →
      ps.Nodup → ss.Nodup := by
  intro ps
  induction ps with
  | nil =>
    intro ss h _
    cases h
    exact List.nodup_nil
  | cons q rest ih =>
    intro ss h hnd
    cases hq : q.toStr with
    | none => simp [pathsToStrings, hq] at h
    | some t =>
      cases hrest : pathsToStrings rest with
      | error e => simp [pathsToStrings, hq, hrest] at h
      | ok ss' =>
        simp [pathsToStrings, hq, hrest] at h
        cases h
        rcases List.nodup_cons.mp hnd with ⟨hqmem, hndrest⟩
        refine List.nodup_cons.mpr ⟨?_, ih hrest hndrest⟩
        intro htmem
        obtain ⟨p, hpmem, hpt⟩ := pathsToStrings_mem hrest t htmem
        exact hqmem ((toStr_inj hpt hq) ▸ hpmem)

theorem pathsToStrings_first_invalid :
    ∀ {ps : List RPathBuf} {p}, List.find? (fun q => q.toStr.isNone) ps = some p →
      pathsToStrings ps = Except.error ("Non-UTF8 output file path: " ++ pathRepr p) := by
  intro ps
  induction ps with
  | nil => intro p h; cases h
  | cons q rest ih =>
    intro p h
    cases hq : q.toStr with
    | none =>
      rw [List.find?_cons_of_pos _ (by simp [hq])] at h
      cases h
      simp [pathsToStrings, hq]
    | some t =>
      rw [List.find?_cons_of_neg _ (by simp [hq])] at h
      simp [pathsToStrings, hq, ih h]

/-! ## Facts about response extraction and classification -/

theorem extractExecuteResponse_notFinished {store : CasStore} {op : Operation}
    (h : op.done = false) :
    extractExecuteResponse store op =
      (Except.error (ExecutionError.notFinished op.name), store) := by
  unfold extractExecuteResponse
  rw [h]
  simp

theorem extractExecuteResponse_classify {store : CasStore} {op : Operation}
    {pl : ResponsePayload} {resp : ExecuteResponse} {out : RBytes × RBytes × HDigest}
    {s1 : CasStore}
    (hdone : op.done = true) (herr : op.error = none) (hresp : op.response = some pl)
    (hdec : decodeExecuteResponse pl = Except.ok resp)
    (hx : extractParts store resp = (Except.ok out, s1)) :
    extractExecuteResponse store op = (classifyStatus resp out.1 out.2.1 out.2.2, s1) := by
  cases op with
  | mk name done error response =>
    simp only at hdone herr hresp
    subst hdone
    subst herr
    subst hresp
    simp [extractExecuteResponse, hdec, hx]

theorem extractExecuteResponse_partsError {store : CasStore} {op : Operation}
    {pl : ResponsePayload} {resp : ExecuteResponse} {e : ExecutionError} {s1 : CasStore}
    (hdone : op.done = true) (herr : op.error = none) (hresp : op.response = some pl)
    (hdec : decodeExecuteResponse pl = Except.ok resp)
    (hx : extractParts store resp = (Except.error e, s1)) :
    extractExecuteResponse store op = (Except.error e, s1) := by
  cases op with
  | mk name done error response =>
    simp only at hdone herr hresp
    subst hdone
    subst herr
    subst hresp
    simp [extractExecuteResponse, hdec, hx]

theorem parseViolation_spec (v : PfViolation) (d : HDigest) :
    parseViolation v = Except.ok d ↔ specViolationDigest v = some d := by
  unfold parseViolation specViolationDigest
  by_cases hft : v.fieldType = "MISSING"
  · simp only [hft, ne_eq, not_true_eq_false, if_false, if_true]
    rcases splitSlash v.subject with _ | ⟨p0, _ | ⟨p1, _ | ⟨p2, _ | ⟨p3, ps⟩⟩⟩⟩
    · simp
    · simp
    · simp
    · by_cases hp0 : p0 = "blobs"
      · simp only [hp0, ne_eq, not_true_eq_false, if_false, if_true]
        cases hfp : fingerprintFromHex p1 with
        | error e => simp
        | ok fp =>
          cases hn : parseUsize p2 with
          | error e => simp
          | ok n => simp [eq_comm]
      · simp [hp0]
    · simp
  · simp [hft]

theorem parseViolations_spec :
    ∀ (vs : List PfViolation) (ds : List HDigest),
      parseViolations vs = Except.ok ds ↔ specViolationDigests vs = some ds := by
  intro vs
  induction vs with
  | nil => intro ds; simp [parseViolations, specViolationDigests]
  | cons v rest ih =>
    intro ds
    cases hv : parseViolation v with
    | error e =>
      have hs : specViolationDigest v = none := by
        cases hsv : specViolationDigest v with
        | none => rfl
        | some d =>
          have hcontra := (parseViolation_spec v d).mpr hsv
          rw [hv] at hcontra
          cases hcontra
      simp [parseViolations, specViolationDigests, hv, hs]
    | ok d =>
      have hs := (parseViolation_spec v d).mp hv
      cases hrest : parseViolations rest with
      | error e =>
        have hrs : specViolationDigests rest = none := by
          cases hsv : specViolationDigests rest with
          | none => rfl
          | some ds' =>
            have hcontra := (ih ds').mpr hsv
            rw [hrest] at hcontra
            cases hcontra
        simp [parseViolations, specViolationDigests, hv, hs, hrest, hrs]
      | ok ds' =>
        have hrs := (ih ds').mp hrest
        simp [parseViolations, specViolationDigests, hv, hs, hrest, hrs]

theorem specViolationDigests_length :
    ∀ {vs : List PfViolation} {ds : List HDigest},
      specViolationDigests vs = some ds → ds.length = vs.length := by
  intro vs
  induction vs with
  | nil =>
    intro ds h
    cases h
    rfl
  | cons v rest ih =>
    intro ds h
    cases hv : specViolationDigest v with
    | none => simp [specViolationDigests, hv] at h
    | some d =>
      cases hrest : specViolationDigests rest with
      | none => simp [specViolationDigests, hv, hrest] at h
      | some ds' =>
        simp [specViolationDigests, hv, hrest] at h
        subst h
        simp [ih hrest]

theorem parseViolation_error_fatal {v : PfViolation} {e : ExecutionError}
    (h : parseViolation v = Except.error e) : ∃ m, e = ExecutionError.fatal m := by
  unfold parseViolation at h
  split at h
  · cases h; exact ⟨_, rfl⟩
  · split at h
    · split at h
      · cases h; exact ⟨_, rfl⟩
      · split at h
        · cases h; exact ⟨_, rfl⟩
        · split at h
          · cases h; exact ⟨_, rfl⟩
          · cases h
    · cases h; exact ⟨_, rfl⟩

theorem parseViolations_error_fatal :
    ∀ {vs : List PfViolation} {e : ExecutionError},
      parseViolations vs = Except.error e → ∃ m, e = ExecutionError.fatal m := by
  intro vs
  induction vs with
  | nil => intro e h; cases h
  | cons v rest ih =>
    intro e h
    cases hv : parseViolation v with
    | error e2 =>
      rw [parseViolations, hv] at h
      cases h
      exact parseViolation_error_fatal hv
    | ok d =>
      rw [parseViolations, hv] at h
      cases hrest : parseViolations rest with
      | error e2 =>
        rw [hrest] at h
        cases h
        exact ih hrest
      | ok ds => rw [hrest] at h; cases h

theorem classifyStatus_error_of_ne {resp : ExecuteResponse} {a b : RBytes} {c : HDigest}
    (h0 : resp.status.code ≠ 0) :
    ∃ e, classifyStatus resp a b c = Except.error e := by
  unfold classifyStatus
  rw [if_neg h0]
  by_cases h9 : resp.status.code = 9
  · rw [if_pos h9]
    split
    · split
      · exact ⟨_, rfl⟩
      · split
        · exact ⟨_, rfl⟩
        · split
          · exact ⟨_, rfl⟩
          · split
            · exact ⟨_, rfl⟩
            · exact ⟨_, rfl⟩
    · exact ⟨_, rfl⟩
  · rw [if_neg h9]
    exact ⟨_, rfl⟩

/-! ## Persistence of content-addressed entries across store steps -/

theorem hasContent_store {st : CasStore} {b : RBytes} (h : hasContent st b)
    (b' : RBytes) (c : Bool) : hasContent (st.storeFileBytes b' c).2 b := by
  unfold hasContent CasStore.storeFileBytes CasStore.loadFileBytes
  simp only [lookupBlob]
  by_cases hd : digestOf b' = digestOf b
  · have hb : b' = b := digestOf_injective hd
    subst hb
    simp [hd]
  · simp only [hd, if_false]
    exact h

theorem hasContent_extractStdout {st : CasStore} {resp : ExecuteResponse} {b : RBytes}
    (h : hasContent st b) : hasContent (extractStdout st resp).2 b := by
  cases hsd : resp.result.stdoutDigest with
  | some pd =>
    cases hc : protoDigestToDigest pd with
    | error e => simpa [extractStdout, hsd, hc] using h
    | ok d =>
      cases hl : st.loadFileBytes d with
      | some v => simpa [extractStdout, hsd, hc, hl] using h
      | none => simpa [extractStdout, hsd, hc, hl] using h
  | none => simpa [extractStdout, hsd] using hasContent_store h resp.result.stdoutRaw true

theorem hasContent_extractStderr {st : CasStore} {resp : ExecuteResponse} {b : RBytes}
    (h : hasContent st b) : hasContent (extractStderr st resp).2 b := by
  cases hsd : resp.result.stderrDigest with
  | some pd =>
    cases hc : protoDigestToDigest pd with
    | error e => simpa [extractStderr, hsd, hc] using h
    | ok d =>
      cases hl : st.loadFileBytes d with
      | some v => simpa [extractStderr, hsd, hc, hl] using h
      | none => simpa [extractStderr, hsd, hc, hl] using h
  | none => simpa [extractStderr, hsd] using hasContent_store h resp.result.stderrRaw true

theorem hasContent_storeInline {b : RBytes} :
    ∀ (entries : List (String × RBytes)) {st : CasStore}, hasContent st b →
      hasContent (storeInlineFiles st entries).1 b
  | [], _, h => h
  | (_, bb) :: rest, _, h => hasContent_storeInline rest (hasContent_store h bb false)

theorem hasContent_extractOutputFiles {st : CasStore} {resp : ExecuteResponse} {b : RBytes}
    (h : hasContent st b) : hasContent (extractOutputFiles st resp).2 b := by
  unfold extractOutputFiles
  cases hc : collectOutputFiles resp.result.outputFiles with
  | error e => simpa using h
  | ok triple =>
    obtain ⟨ps, dm, im⟩ := triple
    have him := hasContent_storeInline im h
    dsimp only
    cases hd : digestFromPathStats
        (lookupPath ((dm ++ (storeInlineFiles st im).2).foldl (fun m e => e :: m) [])) ps with
    | error e => simp only [hd]; exact him
    | ok dg => simp only [hd]; exact him

theorem hasContent_extractParts {st : CasStore} {resp : ExecuteResponse} {b : RBytes}
    (h : hasContent st b) : hasContent (extractParts st resp).2 b := by
  unfold extractParts
  cases h1 : extractStdout st resp with
  | mk r1 s1 =>
    have hs1 : hasContent s1 b := by
      have hh := @hasContent_extractStdout st resp b h
      rw [h1] at hh
      exact hh
    cases r1 with
    | error e => exact hs1
    | ok so =>
      dsimp only
      cases h2 : extractStderr s1 resp with
      | mk r2 s2 =>
        have hs2 : hasContent s2 b := by
          have hh := @hasContent_extractStderr s1 resp b hs1
          rw [h2] at hh
          exact hh
        cases r2 with
        | error e => exact hs2
        | ok se =>
          dsimp only
          cases h3 : extractOutputFiles s2 resp with
          | mk r3 s3 =>
            have hs3 : hasContent s3 b := by
              have hh := @hasContent_extractOutputFiles s2 resp b hs2
              rw [h3] at hh
              exact hh
            cases r3 with
            | error e => exact hs3
            | ok od => exact hs3

theorem hasContent_extractExecuteResponse {st : CasStore} {op : Operation} {b : RBytes}
    (h : hasContent st b) : hasContent (extractExecuteResponse st op).2 b := by
  unfold extractExecuteResponse
  by_cases hd : op.done
  · simp only [hd, if_true]
    cases op.error with
    | some s => exact h
    | none =>
      dsimp only
      cases op.response with
      | none => exact h
      | some pl =>
        dsimp only
        cases decodeExecuteResponse pl with
        | error e => exact h
        | ok resp =>
          dsimp only
          cases hx : extractParts st resp with
          | mk r s =>
            have hs : hasContent s b := by
              have hh := @hasContent_extractParts st resp b h
              rw [hx] at hh
              exact hh
            cases r with
            | error e => exact hs
            | ok out => exact hs
  · simp only [hd, if_false]
    exact h

theorem hasContent_driveStep {timeout : Nat} {desc : String} {elapsed : Nat} {st : CasStore}
    {op : Operation} {iterNum : Nat} {b : RBytes} (h : hasContent st b) :
    hasContent (driveStep timeout desc elapsed st op iterNum).2 b := by
  unfold driveStep
  cases hx : extractExecuteResponse st op with
  | mk r s =>
    have hs : hasContent s b := by
      have hh := @hasContent_extractExecuteResponse st op b h
      rw [hx] at hh
      exact hh
    cases r with
    | ok result => exact hs
    | error e =>
      cases e with
      | fatal m => exact hs
      | missingDigests ds => exact hs
      | notFinished n =>
        by_cases ht : timeout < elapsed
        · simp only [ht, if_true]
          exact hs
        · simp only [ht, if_false]
          exact hs

theorem hasContent_driveLoop {timeout : Nat} {desc : String} {elapsedAt : Nat → Nat}
    {b : RBytes} :
    ∀ (serverOps : List Operation) (checkIdx : Nat) (st : CasStore) (op : Operation)
      (iterNum : Nat), hasContent st b →
      hasContent (driveLoop timeout desc elapsedAt serverOps checkIdx st op iterNum).2.2 b := by
  intro serverOps
  induction serverOps with
  | nil =>
    intro checkIdx st op iterNum h
    unfold driveLoop
    cases hx : driveStep timeout desc (elapsedAt checkIdx) st op iterNum with
    | mk oc s =>
      have hs : hasContent s b := by
        have hh := @hasContent_driveStep timeout desc (elapsedAt checkIdx) st op iterNum b h
        rw [hx] at hh
        exact hh
      cases oc with
      | finished r => exact hs
      | timedOut m => exact hs
      | resubmit ds => exact hs
      | poll bo n => exact hs
  | cons nextOp rest ih =>
    intro checkIdx st op iterNum h
    unfold driveLoop
    cases hx : driveStep timeout desc (elapsedAt checkIdx) st op iterNum with
    | mk oc s =>
      have hs : hasContent s b := by
        have hh := @hasContent_driveStep timeout desc (elapsedAt checkIdx) st op iterNum b h
        rw [hx] at hh
        exact hh
      cases oc with
      | finished r => exact hs
      | timedOut m => exact hs
      | resubmit ds => exact ih checkIdx s nextOp 0 hs
      | poll bo n => exact ih (checkIdx + 1) s nextOp (iterNum + 1) hs

/-! ## The backoff schedule of an uninterrupted polling run -/

theorem backoff_range_shift (n j : Nat) :
    (List.range (n + 1)).map (fun t => backoffPeriod (j + t)) =
      backoffPeriod j :: (List.range n).map (fun t => backoffPeriod (j + 1 + t)) := by
  have htail : ((List.range n).map Nat.succ).map (fun t => backoffPeriod (j + t)) =
      (List.range n).map (fun t => backoffPeriod (j + 1 + t)) := by
    rw [List.map_map]
    apply List.map_congr_left
    intro t ht
    show backoffPeriod (j + Nat.succ t) = backoffPeriod (j + 1 + t)
    congr 1
    omega
  rw [List.range_succ_eq_map, List.map_cons, htail]
  show backoffPeriod (j + 0) :: _ = _
  rw [Nat.add_zero]

theorem driveLoop_sleeps (timeout : Nat) (desc : String) (elapsedAt : Nat → Nat) :
    ∀ (serverOps : List Operation) (checkIdx : Nat) (store : CasStore) (op : Operation)
      (j : Nat), op.done = false → (∀ o ∈ serverOps, o.done = false) →
      (∀ k, elapsedAt k ≤ timeout) →
      sleepsOf (driveLoop timeout desc elapsedAt serverOps checkIdx store op j).2.1 =
        (List.range (serverOps.length + 1)).map (fun t => backoffPeriod (j + t)) := by
  intro serverOps
  induction serverOps with
  | nil =>
    intro checkIdx store op j hop hops hel
    have hnf := @extractExecuteResponse_notFinished store op hop
    have hlt : ¬ timeout < elapsedAt checkIdx := not_lt.mpr (hel checkIdx)
    simp [driveLoop, driveStep, hnf, hlt, sleepsOf, show List.range 1 = [0] from rfl]
  | cons nextOp rest ih =>
    intro checkIdx store op j hop hops hel
    have hnf := @extractExecuteResponse_notFinished store op hop
    have hlt : ¬ timeout < elapsedAt checkIdx := not_lt.mpr (hel checkIdx)
    have hih := ih (checkIdx + 1) store nextOp (j + 1)
      (hops nextOp (List.mem_cons_self nextOp rest))
      (fun o ho => hops o (List.mem_cons_of_mem nextOp ho)) hel
    have hstep : (driveLoop timeout desc elapsedAt (nextOp :: rest) checkIdx store op j).2.1 =
        DriverEvent.sleep (backoffPeriod j) :: DriverEvent.getOperation op.name ::
          (driveLoop timeout desc elapsedAt rest (checkIdx + 1) store nextOp (j + 1)).2.1 := by
      simp [driveLoop, driveStep, hnf, hlt]
    rw [hstep, List.length_cons]
    have hsl : sleepsOf (DriverEvent.sleep (backoffPeriod j) :: DriverEvent.getOperation op.name ::
        (driveLoop timeout desc elapsedAt rest (checkIdx + 1) store nextOp (j + 1)).2.1) =
        backoffPeriod j ::
          sleepsOf (driveLoop timeout desc elapsedAt rest (checkIdx + 1) store nextOp (j + 1)).2.1 := by
      simp [sleepsOf]
    rw [hsl, hih]
    conv_rhs => rw [backoff_range_shift]

/-! ## Claim theorems -/

/-- Claim C2: whenever the classifier yields `MissingDigests ds`, the
loop first completes `ensure_remote_has_recursive ds` on the store and
only then re-submits `Execute` (consuming the next scripted server
operation); the loop continues with the backoff iteration counter
reset to zero, while the elapsed-time source and the deadline check
index — the observables of the un-reset start time — are carried
unchanged. -/
theorem missingDigestsResubmit
    (timeout : Nat) (desc : String) (elapsedAt : Nat → Nat) (nextOp : Operation)
    (rest : List Operation) (checkIdx : Nat) (store s1 : CasStore) (op : Operation)
    (iterNum : Nat) (ds : List HDigest)
    (h : extractExecuteResponse store op =
      (Except.error (ExecutionError.missingDigests ds), s1)) :
    driveLoop timeout desc elapsedAt (nextOp :: rest) checkIdx store op iterNum =
      ((driveLoop timeout desc elapsedAt rest checkIdx
          (s1.ensureRemoteHasRecursive ds) nextOp 0).1,
        DriverEvent.ensureRemote ds :: DriverEvent.executeCall ::
          (driveLoop timeout desc elapsedAt rest checkIdx
            (s1.ensureRemoteHasRecursive ds) nextOp 0).2.1,
        (driveLoop timeout desc elapsedAt rest checkIdx
          (s1.ensureRemoteHasRecursive ds) nextOp 0).2.2) := by
  simp [driveLoop, driveStep, h]

/-- Witness for C2 at a concrete scenario: a FAILED_PRECONDITION
response with one well-formed MISSING violation, observed mid-run with
a nonzero iteration counter. -/
theorem missingDigestsResubmitWitness :
    driveLoop 9000 "demo" (fun _ => 0) [sampleOkOperation] 3 emptyStore pfOperationInline 5 =
      ((driveLoop 9000 "demo" (fun _ => 0) []
          3 (pfInlineFinalStore.ensureRemoteHasRecursive [sampleMissingDigest])
          sampleOkOperation 0).1,
        DriverEvent.ensureRemote [sampleMissingDigest] :: DriverEvent.executeCall ::
          (driveLoop 9000 "demo" (fun _ => 0) []
            3 (pfInlineFinalStore.ensureRemoteHasRecursive [sampleMissingDigest])
            sampleOkOperation 0).2.1,
        (driveLoop 9000 "demo" (fun _ => 0) []
          3 (pfInlineFinalStore.ensureRemoteHasRecursive [sampleMissingDigest])
          sampleOkOperation 0).2.2) :=
  missingDigestsResubmit 9000 "demo" (fun _ => 0) sampleOkOperation [] 3 emptyStore
    pfInlineFinalStore pfOperationInline 5 [sampleMissingDigest] (by decide)

/-- Claim C4: the wait computed before a poll with iteration counter
`i` is `min(5000, (1 + i) * 500)` milliseconds; consequently, in an
uninterrupted sequence of NotFinished observations with the counter
starting at zero, the k-th poll (1-indexed) is preceded by a wait of
`min(5000, k * 500)` ms, giving 500, 1000, 1500, ... capped at 5000. -/
theorem backoffScheduleClaim :
    (∀ i, backoffPeriod i = min 5000 ((1 + i) * 500))
    ∧ ∀ (timeout : Nat) (desc : String) (elapsedAt : Nat → Nat)
        (serverOps : List Operation) (checkIdx : Nat) (store : CasStore) (op : Operation),
        op.done = false → (∀ o ∈ serverOps, o.done = false) →
        (∀ k, elapsedAt k ≤ timeout) →
        sleepsOf (driveLoop timeout desc elapsedAt serverOps checkIdx store op 0).2.1 =
          (List.range (serverOps.length + 1)).map (fun k => min 5000 ((k + 1) * 500)) := by
  constructor
  · intro i
    rfl
  · intro timeout desc elapsedAt serverOps checkIdx store op hop hops hel
    rw [driveLoop_sleeps timeout desc elapsedAt serverOps checkIdx store op 0 hop hops hel]
    apply List.map_congr_left
    intro t ht
    show backoffPeriod (0 + t) = min 5000 ((t + 1) * 500)
    unfold backoffPeriod BACKOFF_MAX_WAIT_MILLIS BACKOFF_INCR_WAIT_MILLIS
    omega

/-- Witness for C4: the capped formula at counter 12 and the concrete
500/1000/1500 schedule for a three-poll run. -/
theorem backoffScheduleClaimWitness :
    backoffPeriod 12 = min 5000 (13 * 500)
    ∧ sleepsOf (driveLoop 100000 "demo" (fun _ => 0)
        [notFinishedOperation, notFinishedOperation] 0 emptyStore notFinishedOperation 0).2.1 =
      [500, 1000, 1500] := by
  constructor
  · exact backoffScheduleClaim.1 12
  · rw [backoffScheduleClaim.2 100000 "demo" (fun _ => 0)
      [notFinishedOperation, notFinishedOperation] 0 emptyStore notFinishedOperation
      (by decide) (by decide) (fun k => Nat.zero_le 100000)]
    decide

/-- Claim C5: on a NotFinished observation, when the elapsed time
strictly exceeds the request timeout the run returns the timeout error
(built from the timeout, the elapsed time, the operation name and the
request description) and performs no sleep and no GetOperation call;
when the elapsed time is at most the timeout it sleeps for the backoff
period and polls; and the timeout message ends with the request's
description. -/
theorem timeoutCheck
    (timeout : Nat) (desc : String) (elapsedAt : Nat → Nat) (serverOps : List Operation)
    (checkIdx : Nat) (store : CasStore) (op : Operation) (iterNum : Nat)
    (hnf : op.done = false) :
    (timeout < elapsedAt checkIdx →
      driveLoop timeout desc elapsedAt serverOps checkIdx store op iterNum =
        (Except.error (timeoutMsg timeout (elapsedAt checkIdx) op.name desc), [], store))
    ∧ (elapsedAt checkIdx ≤ timeout →
      ∃ tailEvents,
        (driveLoop timeout desc elapsedAt serverOps checkIdx store op iterNum).2.1 =
          DriverEvent.sleep (backoffPeriod iterNum) ::
            DriverEvent.getOperation op.name :: tailEvents)
    ∧ ∃ prefixPart, timeoutMsg timeout (elapsedAt checkIdx) op.name desc = prefixPart ++ desc := by
  have hx := @extractExecuteResponse_notFinished store op hnf
  refine ⟨?_, ?_, ?_⟩
  · intro hgt
    cases serverOps with
    | nil => simp [driveLoop, driveStep, hx, hgt]
    | cons nextOp rest => simp [driveLoop, driveStep, hx, hgt]
  · intro hle
    have hlt : ¬ timeout < elapsedAt checkIdx := not_lt.mpr hle
    cases serverOps with
    | nil =>
      refine ⟨[], ?_⟩
      simp [driveLoop, driveStep, hx, hlt]
    | cons nextOp rest =>
      refine ⟨(driveLoop timeout desc elapsedAt rest (checkIdx + 1) store nextOp
        (iterNum + 1)).2.1, ?_⟩
      simp [driveLoop, driveStep, hx, hlt]
  · exact ⟨_, rfl⟩

/-- Witness for C5: a concrete timed-out poll (elapsed 200 ms against a
100 ms timeout) and a concrete in-time poll. -/
theorem timeoutCheckWitness :
    driveLoop 100 "echo-a-foo" (fun _ => 200) [] 0 emptyStore notFinishedOperation 0 =
      (Except.error (timeoutMsg 100 200 "gimme-foo" "echo-a-foo"), [], emptyStore)
    ∧ (∃ tailEvents,
        (driveLoop 5000 "echo-a-foo" (fun _ => 200) [] 0 emptyStore
          notFinishedOperation 0).2.1 =
          DriverEvent.sleep (backoffPeriod 0) :: DriverEvent.getOperation "gimme-foo" :: tailEvents)
    ∧ ∃ prefixPart, timeoutMsg 100 200 "gimme-foo" "echo-a-foo" = prefixPart ++ "echo-a-foo" := by
  refine ⟨?_, ?_, ?_⟩
  · exact (timeoutCheck 100 "echo-a-foo" (fun _ => 200) [] 0 emptyStore notFinishedOperation 0
      (by decide)).1 (by decide)
  · exact (timeoutCheck 5000 "echo-a-foo" (fun _ => 200) [] 0 emptyStore notFinishedOperation 0
      (by decide)).2.1 (by decide)
  · exact (timeoutCheck 100 "echo-a-foo" (fun _ => 200) [] 0 emptyStore notFinishedOperation 0
      (by decide)).2.2

/-- Claim C6: for a request whose output paths are all valid UTF-8 (and
pairwise distinct, as the iteration of a path set is), canonicalization
succeeds and the resulting Action's output_files list is strictly
ascending in the lexicographic string order — sorted with no
duplicates. -/
theorem outputFilesStrictlyAscending (req : ExecuteProcessRequest)
    (hutf : ∀ p ∈ req.outputFiles, p.toStr.isSome = true)
    (hnodup : req.outputFiles.Nodup) :
    ∃ command ereq, makeExecuteRequest req = Except.ok (command, ereq)
      ∧ List.Pairwise (fun a b => strLtB a b = true) ereq.action.outputFiles := by
  obtain ⟨ss, hss⟩ := pathsToStrings_ok_of_all hutf
  have hnodupss := pathsToStrings_nodup hss hnodup
  have hsorted := pairwise_sortStrings ss
  have hnodup2 : (sortStrings ss).Nodup := ((perm_sortStrings ss).symm).nodup hnodupss
  refine ⟨builtCommand req, builtExecuteRequest req (sortStrings ss), ?_, ?_⟩
  · unfold makeExecuteRequest builtCommand builtExecuteRequest
    rw [hss]
    rfl
  · exact pairwise_strict_of_nodup hsorted hnodup2

/-- Witness for C6 at the canonical-request fixture, whose output files
arrive in the wrong order. -/
theorem outputFilesStrictlyAscendingWitness :
    (∀ p ∈ sampleRequest.outputFiles, p.toStr.isSome = true)
    ∧ sampleRequest.outputFiles.Nodup
    ∧ ∃ command ereq, makeExecuteRequest sampleRequest = Except.ok (command, ereq)
        ∧ List.Pairwise (fun a b => strLtB a b = true) ereq.action.outputFiles :=
  ⟨by decide, by decide,
    outputFilesStrictlyAscending sampleRequest (by decide) (by decide)⟩

/-- Claim C7: canonicalization fails exactly when some output path is
not representable as a valid UTF-8 string (in the model the only other
failure source mentioned by the claim, serializing the Command for
digesting, is total); on failure the error names the first offending
path, and — the result being the error alone — no
`(Command, ExecuteRequest)` pair is produced. -/
theorem canonicalizeFailureCharacterization (req : ExecuteProcessRequest) :
    ((∃ pr, makeExecuteRequest req = Except.ok pr) ↔
      ∀ p ∈ req.outputFiles, p.toStr.isSome = true)
    ∧ (∀ p, List.find? (fun q => q.toStr.isNone) req.outputFiles = some p →
        makeExecuteRequest req = Except.error ("Non-UTF8 output file path: " ++ pathRepr p)) := by
  constructor
  · constructor
    · rintro ⟨pr, hpr⟩
      cases hps : pathsToStrings req.outputFiles with
      | error e => simp [makeExecuteRequest, hps] at hpr
      | ok ss => exact pathsToStrings_all_of_ok hps
    · intro hall
      obtain ⟨ss, hss⟩ := pathsToStrings_ok_of_all hall
      refine ⟨(builtCommand req, builtExecuteRequest req (sortStrings ss)), ?_⟩
      unfold makeExecuteRequest builtCommand builtExecuteRequest
      rw [hss]
      rfl
  · intro p hfind
    have he := pathsToStrings_first_invalid hfind
    unfold makeExecuteRequest
    rw [he]

/-- Witness for C7 at a request holding a non-UTF-8 output path. -/
theorem canonicalizeFailureWitness :
    List.find? (fun q => q.toStr.isNone) badPathRequest.outputFiles =
        some (RPathBuf.nonUtf8 7)
    ∧ makeExecuteRequest badPathRequest =
        Except.error ("Non-UTF8 output file path: " ++ pathRepr (RPathBuf.nonUtf8 7)) :=
  ⟨by decide,
    (canonicalizeFailureCharacterization badPathRequest).2 (RPathBuf.nonUtf8 7) (by decide)⟩

theorem hasContent_fresh (st : CasStore) (b : RBytes) (c : Bool) :
    hasContent (st.storeFileBytes b c).2 b := by
  unfold hasContent CasStore.storeFileBytes CasStore.loadFileBytes
  simp [lookupBlob]

/-- Claim C8: whenever the server returns stdout or stderr as inline
raw bytes — either stream on its own, independently of how the other
is carried — the bytes handed back to the caller are exactly the
inline bytes, and they are persisted to the local store so that a load
by their digest returns them; and content-addressed entries of that
shape survive every subsequent store step, in particular the whole
remainder of the polling run from any store state. -/
theorem inlineStdioStoredLocally (store : CasStore) (resp : ExecuteResponse) :
    (resp.result.stdoutDigest = none →
      (extractStdout store resp).1 = Except.ok resp.result.stdoutRaw
      ∧ hasContent (extractStdout store resp).2 resp.result.stdoutRaw)
    ∧ (resp.result.stderrDigest = none →
      (extractStderr store resp).1 = Except.ok resp.result.stderrRaw
      ∧ hasContent (extractStderr store resp).2 resp.result.stderrRaw)
    ∧ ∀ (b : RBytes) (timeout : Nat) (desc : String) (elapsedAt : Nat → Nat)
        (serverOps : List Operation) (checkIdx : Nat) (st : CasStore) (op2 : Operation)
        (iterNum : Nat), hasContent st b →
        hasContent (driveLoop timeout desc elapsedAt serverOps checkIdx st op2 iterNum).2.2 b := by
  refine ⟨?_, ?_, ?_⟩
  · intro hso
    constructor
    · simp [extractStdout, hso]
    · simp only [extractStdout, hso]
      exact hasContent_fresh store resp.result.stdoutRaw true
  · intro hse
    constructor
    · simp [extractStderr, hse]
    · simp only [extractStderr, hse]
      exact hasContent_fresh store resp.result.stderrRaw true
  · intro b timeout desc elapsedAt serverOps checkIdx st op2 iterNum hb
    exact hasContent_driveLoop serverOps checkIdx st op2 iterNum hb

/-- Witness for C8 at a mixed run: stdout carried by a digest, stderr
inline as `[42]`; the inline stderr is returned verbatim, persisted,
and survives a concrete further polling step. -/
theorem inlineStdioStoredLocallyWitness :
    (extractStderr mixedStore mixedResponse).1 = Except.ok [42]
    ∧ hasContent (extractStderr mixedStore mixedResponse).2 [42]
    ∧ hasContent (driveLoop 5000 "demo" (fun _ => 0) [] 0
        (extractStderr mixedStore mixedResponse).2 notFinishedOperation 0).2.2 [42]
    ∧ (extractStdout mixedStore mixedResponse).1 = Except.ok [9] := by
  have h := inlineStdioStoredLocally mixedStore mixedResponse
  have h2 := h.2.1 rfl
  refine ⟨h2.1, h2.2, ?_, by decide⟩
  exact h.2.2 [42] 5000 "demo" (fun _ => 0) [] 0
    (extractStderr mixedStore mixedResponse).2 notFinishedOperation 0 h2.2

/-- Claim C9 (amended): a completed, error-free operation whose decoded
response has status OK — provided its stdout/stderr/output-file
extraction succeeds (an extraction failure, e.g. an unfetchable stdout
digest, surfaces as its own Fatal first) — produces a successful
result carrying the ActionResult's exit code verbatim: any exit code,
nonzero included, is surfaced as success, never as an error. -/
theorem okStatusYieldsExitCode
    (store : CasStore) (op : Operation) (pl : ResponsePayload) (resp : ExecuteResponse)
    (out : RBytes × RBytes × HDigest) (s1 : CasStore)
    (hdone : op.done = true) (herr : op.error = none) (hresp : op.response = some pl)
    (hdec : decodeExecuteResponse pl = Except.ok resp)
    (hcode : resp.status.code = 0)
    (hx : extractParts store resp = (Except.ok out, s1)) :
    extractExecuteResponse store op =
      (Except.ok { stdout := out.1, stderr := out.2.1
                   exitCode := resp.result.exitCode, outputDirectory := out.2.2 }, s1) := by
  rw [extractExecuteResponse_classify hdone herr hresp hdec hx]
  simp [classifyStatus, hcode]

/-- Witness for C9 at a response with the nonzero exit code 17. -/
theorem okStatusYieldsExitCodeWitness :
    extractExecuteResponse emptyStore sampleOkOperation =
      (Except.ok { stdout := [1, 2], stderr := [3], exitCode := 17
                   outputDirectory := EMPTY_DIGEST }, sampleOkFinalStore)
    ∧ sampleOkResponse.result.exitCode = 17 :=
  ⟨okStatusYieldsExitCode emptyStore sampleOkOperation
      (ResponsePayload.wellFormed sampleOkResponse) sampleOkResponse
      ([1, 2], [3], EMPTY_DIGEST) sampleOkFinalStore
      rfl rfl rfl rfl rfl (by decide),
    rfl⟩

/-- Counterexample to C9 as stated: a completed operation with status
code OK and the nonzero exit code 17 whose ActionResult references a
stdout digest absent from the local store; the run returns Fatal, not
a successful FallibleProcessResult, because the extraction fails
before the exit code can be surfaced. -/
theorem okStatusYieldsExitCodeCounterexample :
    okBadStdoutResponse.status.code = 0
    ∧ okBadStdoutResponse.result.exitCode = 17
    ∧ (extractExecuteResponse emptyStore okBadStdoutOperation).1 =
        Except.error (ExecutionError.fatal
          ("Couldn't find stdout digest (" ++ digestRepr sampleStdoutDigest ++
            "), when fetching.")) := by
  refine ⟨rfl, rfl, ?_⟩
  decide

/-- Claim C10: when the ActionResult's output_files list is empty, the
output-file assembly succeeds without touching the store — no per-file
upload happens and no digest is consulted — and returns the digest of
the empty directory. -/
theorem emptyOutputFilesEmptyDigest (store : CasStore) (resp : ExecuteResponse)
    (h : resp.result.outputFiles = []) :
    extractOutputFiles store resp = (Except.ok EMPTY_DIGEST, store) := by
  unfold extractOutputFiles
  rw [h]
  rfl

/-- Witness for C10 at the successful-response fixture, whose
output_files list is empty. -/
theorem emptyOutputFilesEmptyDigestWitness :
    extractOutputFiles emptyStore sampleOkResponse = (Except.ok EMPTY_DIGEST, emptyStore) :=
  emptyOutputFilesEmptyDigest emptyStore sampleOkResponse rfl

theorem classifyStatus_failedPrecondition (resp : ExecuteResponse) (a b : RBytes) (c : HDigest)
    (hcode : resp.status.code = 9) :
    (∀ ds, classifyStatus resp a b c = Except.error (ExecutionError.missingDigests ds) ↔
        specMissingDigests resp = some ds)
    ∧ (specMissingDigests resp = none →
        ∃ msg, classifyStatus resp a b c = Except.error (ExecutionError.fatal msg)) := by
  have h0 : resp.status.code ≠ 0 := by rw [hcode]; decide
  unfold classifyStatus specMissingDigests
  rw [if_neg h0, if_pos hcode]
  rcases resp.status.details with _ | ⟨d, _ | ⟨d2, rest⟩⟩
  all_goals dsimp only
  · exact ⟨fun ds => by simp, fun _ => ⟨_, rfl⟩⟩
  · by_cases hurl : d.typeUrl = preconditionFailureTypeUrl
    · rw [if_neg (by simpa using hurl), if_pos hurl]
      cases d.value with
      | malformed id => exact ⟨fun ds => by simp [decodePreconditionFailure], fun _ => ⟨_, rfl⟩⟩
      | wellFormed pf =>
        simp only [decodePreconditionFailure]
        cases hpv : parseViolations pf.violations with
        | error e =>
          obtain ⟨m, hm⟩ := parseViolations_error_fatal hpv
          subst hm
          have hspec : (if pf.violations.isEmpty then none
              else specViolationDigests pf.violations) = none := by
            by_cases hemp : pf.violations.isEmpty
            · rw [if_pos hemp]
            · rw [if_neg hemp]
              cases hsv : specViolationDigests pf.violations with
              | none => rfl
              | some ds2 =>
                have hc := (parseViolations_spec pf.violations ds2).mpr hsv
                rw [hpv] at hc
                cases hc
          rw [hspec]
          constructor
          · intro ds
            constructor
            · intro hcl
              injection hcl with h2
              cases h2
            · intro hds
              cases hds
          · intro _
            exact ⟨m, rfl⟩
        | ok ds0 =>
          have hsv := (parseViolations_spec pf.violations ds0).mp hpv
          dsimp only
          by_cases hlen : ds0.length = 0
          · have hds0 : ds0 = [] := List.length_eq_zero.mp hlen
            have hvs : pf.violations = [] := by
              have hl := specViolationDigests_length hsv
              rw [hlen] at hl
              exact List.length_eq_zero.mp hl.symm
            have hemp : pf.violations.isEmpty = true := by
              rw [hvs]
              rfl
            rw [if_pos hlen, if_pos hemp]
            constructor
            · intro ds
              constructor
              · intro hcl
                injection hcl with h2
                cases h2
              · intro hds
                cases hds
            · intro _
              exact ⟨_, rfl⟩
          · have hvs : pf.violations ≠ [] := by
              intro hv
              rw [hv] at hpv
              cases hpv
              exact hlen rfl
            have hemp : ¬ pf.violations.isEmpty = true := by
              simpa [List.isEmpty_iff] using hvs
            rw [if_neg hlen, if_neg hemp, hsv]
            constructor
            · intro ds
              constructor
              · intro hcl
                injection hcl with h2
                injection h2 with h3
                rw [h3]
              · intro hds
                injection hds with h2
                rw [h2]
            · intro hnone
              cases hnone
    · rw [if_pos (by simpa using hurl), if_neg hurl]
      exact ⟨fun ds => by simp, fun _ => ⟨_, rfl⟩⟩
  · exact ⟨fun ds => by simp, fun _ => ⟨_, rfl⟩⟩

/-- Claim C1 (amended): for every completed, error-free operation whose
decoded ExecuteResponse has status code FAILED_PRECONDITION — provided
the stdout/stderr/output-file extraction of the same response succeeds
(the source joins the extraction before inspecting the status, so an
extraction failure preempts classification with its own Fatal) — the
classifier returns MissingDigests with the digests in server order
exactly when the status carries exactly one details entry whose
type_url is the PreconditionFailure one, the entry decodes to a
PreconditionFailure with a non-empty violation list, and every
violation has type MISSING and a subject splitting on "/" into exactly
["blobs", fingerprint, size] with both parts parseable; in every other
case it returns Fatal. -/
theorem failedPreconditionClassification
    (store : CasStore) (op : Operation) (pl : ResponsePayload) (resp : ExecuteResponse)
    (out : RBytes × RBytes × HDigest) (s1 : CasStore)
    (hdone : op.done = true) (herr : op.error = none) (hresp : op.response = some pl)
    (hdec : decodeExecuteResponse pl = Except.ok resp)
    (hcode : resp.status.code = 9)
    (hx : extractParts store resp = (Except.ok out, s1)) :
    (∀ ds, (extractExecuteResponse store op).1 =
        Except.error (ExecutionError.missingDigests ds) ↔ specMissingDigests resp = some ds)
    ∧ (specMissingDigests resp = none →
        ∃ msg, (extractExecuteResponse store op).1 =
          Except.error (ExecutionError.fatal msg)) := by
  rw [extractExecuteResponse_classify hdone herr hresp hdec hx]
  exact classifyStatus_failedPrecondition resp out.1 out.2.1 out.2.2 hcode

/-- Witness for C1 at a concrete well-formed FAILED_PRECONDITION
response whose extraction succeeds. -/
theorem failedPreconditionClassificationWitness :
    (extractExecuteResponse emptyStore pfOperationInline).1 =
      Except.error (ExecutionError.missingDigests [sampleMissingDigest]) := by
  have h := failedPreconditionClassification emptyStore pfOperationInline
    (ResponsePayload.wellFormed pfInlineResponse) pfInlineResponse
    ([104, 105], [], EMPTY_DIGEST) pfInlineFinalStore rfl rfl rfl rfl rfl (by decide)
  exact (h.1 [sampleMissingDigest]).mpr (by decide)

/-- Counterexample to C1 as stated: a FAILED_PRECONDITION response
carrying one perfectly well-formed MISSING detail (so every condition
of the claim holds, as the first conjunct certifies) nevertheless
classifies as Fatal, not MissingDigests, because its ActionResult
references a stdout digest absent from the local store and the
extraction — run before the status is inspected — fails first. -/
theorem failedPreconditionClassificationCounterexample :
    specMissingDigests pfBadStdoutResponse = some [sampleMissingDigest]
    ∧ (extractExecuteResponse emptyStore pfOperationBadStdout).1 =
      Except.error (ExecutionError.fatal
        ("Couldn't find stdout digest (" ++ digestRepr sampleStdoutDigest ++
          "), when fetching.")) := by
  constructor
  · decide
  · decide

/-- Claim C3 (amended): the output assembler — stdout extraction,
stderr extraction and output-file assembly, with their store side
effects — runs for every completed, error-free operation whose
response payload decodes, regardless of the decoded status code (that
is, before the status is inspected, also when the response classifies
as MissingDigests or Fatal); only the assembled successful result is
gated on the status being OK. -/
theorem extractionPrecedesStatusInspection
    (store : CasStore) (op : Operation) (pl : ResponsePayload) (resp : ExecuteResponse)
    (hdone : op.done = true) (herr : op.error = none) (hresp : op.response = some pl)
    (hdec : decodeExecuteResponse pl = Except.ok resp) :
    (extractExecuteResponse store op).2 = (extractParts store resp).2
    ∧ ∀ r, (extractExecuteResponse store op).1 = Except.ok r → resp.status.code = 0 := by
  cases hx : extractParts store resp with
  | mk rx sx =>
    cases rx with
    | error e =>
      rw [extractExecuteResponse_partsError hdone herr hresp hdec hx]
      refine ⟨rfl, ?_⟩
      intro r h
      cases h
    | ok out =>
      rw [extractExecuteResponse_classify hdone herr hresp hdec hx]
      refine ⟨rfl, ?_⟩
      intro r h
      by_cases hc0 : resp.status.code = 0
      · exact hc0
      · exfalso
        obtain ⟨e2, he2⟩ := @classifyStatus_error_of_ne resp out.1 out.2.1 out.2.2 hc0
        have h2 : classifyStatus resp out.1 out.2.1 out.2.2 = Except.ok r := h
        rw [he2] at h2
        cases h2

/-- Witness for C3 at the concrete MissingDigests-classified response
with inline stdout: the final store is the extraction's store. -/
theorem extractionPrecedesStatusWitness :
    (extractExecuteResponse emptyStore pfOperationInline).2 =
      (extractParts emptyStore pfInlineResponse).2 :=
  (extractionPrecedesStatusInspection emptyStore pfOperationInline
    (ResponsePayload.wellFormed pfInlineResponse) pfInlineResponse rfl rfl rfl rfl).1

/-- Counterexample to C3 as stated: a response classified as
MissingDigests for which the assembler demonstrably ran — its store
side effect is visible: the inline stdout bytes [104, 105], absent
from the empty store, are present in the store afterwards. -/
theorem extractionPrecedesStatusCounterexample :
    (extractExecuteResponse emptyStore pfOperationInline).1 =
      Except.error (ExecutionError.missingDigests [sampleMissingDigest])
    ∧ emptyStore.loadFileBytes (digestOf [104, 105]) = none
    ∧ (extractExecuteResponse emptyStore pfOperationInline).2.loadFileBytes
        (digestOf [104, 105]) = some [104, 105] := by
  refine ⟨?_, ?_, ?_⟩
  · decide
  · decide
  · decide
